import Mathlib

/-!
Verification of the gateway-deployment reconciliation logic of the
submariner-io/cloud-prepare repository, shallowly embedded in Lean.

Each definition mirrors one Go function from the source; stateful code is
embedded as explicit state passing, and every provider mutation issued by an
operation is recorded in an explicit call trace.  Reads (list/get calls) are
not recorded: the traces exist to reason about mutations.
-/

namespace CloudPrepare

/-- Go strings.Contains: whether sub occurs as a contiguous substring of s
(checked position by position, as a prefix of each suffix). -/
def charsContain (sub : List Char) : List Char → Bool
  | [] => sub.isEmpty
  | c :: rest => sub.isPrefixOf (c :: rest) || charsContain sub rest

/-- Go strings.Contains(s, sub). -/
def strContains (s sub : String) : Bool :=
  charsContain sub.toList s.toList

/-! ## Kubernetes data model (k8s.io/api/core/v1 subset used by the repo) -/

/-- A node taint (core/v1 Taint, the key and effect fields the code reads). -/
structure Taint where
  key : String
  effect : String
  deriving DecidableEq, Repr

/-- A Kubernetes node: name, labels (as an association list) and taints. -/
structure Node where
  name : String
  labels : List (String × String)
  taints : List Taint
  deriving DecidableEq, Repr

/-- k8s.SubmarinerGatewayLabel (pkg/k8s). -/
def submarinerGatewayLabel : String := "submariner.io/gateway"

/-- Value of a label key on a node (Go map lookup). -/
def getLabel (n : Node) (key : String) : Option String :=
  (n.labels.find? (fun p => p.1 == key)).map (fun p => p.2)

/-- Whether the node carries the label key at all. -/
def hasLabelKey (n : Node) (key : String) : Bool :=
  (n.labels.find? (fun p => p.1 == key)).isSome

/-- isMasterNode (pkg/generic/gwdeployer.go): the node has the
node-role.kubernetes.io/master taint with effect NoSchedule. -/
def isMasterNode (n : Node) : Bool :=
  n.taints.any (fun t =>
    t.key == "node-role.kubernetes.io/master" && t.effect == "NoSchedule")

/-- The Kubernetes cluster state visible to the deployers: its node list. -/
structure Cluster where
  nodes : List Node
  deriving DecidableEq, Repr

/-- Whether a node matches the selector submariner.io/gateway=true. -/
def isGWNode (n : Node) : Bool :=
  getLabel n submarinerGatewayLabel == some "true"

/-- k8s.Interface.ListGatewayNodes: nodes matching the selector
submariner.io/gateway=true. -/
def listGatewayNodes (c : Cluster) : List Node :=
  c.nodes.filter isGWNode

/-- Number of gateway-labeled nodes. -/
def gwCount (c : Cluster) : Nat :=
  (listGatewayNodes c).length

/-- Nodes matching the label selector "!submariner.io/gateway": the label key
is absent. -/
def listNodesWithoutGWLabel (c : Cluster) : List Node :=
  c.nodes.filter (fun n => !(hasLabelKey n submarinerGatewayLabel))

/-- Go map assignment labels[key] = value on an association list. -/
def setLabel (labels : List (String × String)) (key value : String) :
    List (String × String) :=
  if labels.any (fun p => p.1 == key) then
    labels.map (fun p => if p.1 == key then (p.1, value) else p)
  else
    labels ++ [(key, value)]

/-- The node update performed by k8s.Interface.AddGWLabelOnNode on the node
with the given name: labels[submariner.io/gateway] = "true". -/
def labelGW (nodeName : String) (n : Node) : Node :=
  if n.name == nodeName then
    { n with labels := setLabel n.labels submarinerGatewayLabel "true" }
  else n

/-- k8s.Interface.AddGWLabelOnNode applied to the cluster state. -/
def addGWLabelOnNode (c : Cluster) (nodeName : String) : Cluster :=
  ⟨c.nodes.map (labelGW nodeName)⟩

/-! ## Generic gateway deployer (pkg/generic/gwdeployer.go) -/

/-- A Kubernetes mutation call issued by the generic deployer. -/
inductive K8sCall where
  | addGWLabel (node : String)
  | removeGWLabel (node : String)
  deriving DecidableEq, Repr

/-- The error returned by the generic Deploy: "there are an insufficient
number of worker nodes (workers) to satisfy the desired number of gateways
(gateways)". -/
inductive GenericErr where
  | insufficientWorkerNodes (workers : Nat) (gateways : Int)
  deriving DecidableEq, Repr

/-- Result of the generic Deploy: returned error, final cluster state, and
the trace of mutation calls issued. -/
structure GenericResult where
  err : Option GenericErr
  cluster : Cluster
  calls : List K8sCall
  deriving DecidableEq, Repr

/-- The node-labeling loop of the generic Deploy: iterate the snapshot of
non-gateway nodes, skip master nodes, label each remaining node and stop as
soon as the remaining count reaches zero; fall through to the insufficiency
error when the snapshot is exhausted. -/
def genericDeployLoop (numWorkers : Nat) (gateways : Int) :
    List Node → Cluster → Int → List K8sCall → GenericResult
  | [], c, _, calls =>
      ⟨some (.insufficientWorkerNodes numWorkers gateways), c, calls⟩
  | n :: rest, c, toDeploy, calls =>
      if isMasterNode n then
        genericDeployLoop numWorkers gateways rest c toDeploy calls
      else
        let c2 := addGWLabelOnNode c n.name
        let calls2 := calls ++ [K8sCall.addGWLabel n.name]
        if toDeploy - 1 ≤ 0 then ⟨none, c2, calls2⟩
        else genericDeployLoop numWorkers gateways rest c2 (toDeploy - 1) calls2

/-- gatewayDeployer.Deploy (pkg/generic/gwdeployer.go): compute the delta
between desired and current gateway-labeled nodes; delta zero succeeds with
no calls, negative delta reports a failure but returns nil with no calls,
positive delta labels eligible worker nodes. -/
def genericDeploy (c : Cluster) (gateways : Int) : GenericResult :=
  let toDeploy : Int := gateways - gwCount c
  if toDeploy = 0 then ⟨none, c, []⟩
  else if toDeploy < 0 then ⟨none, c, []⟩
  else
    let nonGW := listNodesWithoutGWLabel c
    genericDeployLoop nonGW.length gateways nonGW c toDeploy []

/-! ## RHOS gateway deployer, machine-set version (pkg/rhos/ocpgwdeployer.go,
reporter.Interface variant)

The gateway security group helpers (createGWSecurityGroup) and the OCP
machine-set deployer live in repository files that are not part of the
extracted sources; they are modelled from the spec as idempotent
check-then-create operations. -/

/-- Modelled from the spec: the gateway security-group suffix appended to the
infra ID to name the external rule set (the rhos constants file is not among
the extracted sources). -/
def gwSecurityGroupSuffix : String := "-submariner-gw-sg"

/-- A provider mutation call issued by the machine-set based RHOS Deploy. -/
inductive RhosNewCall where
  | createSG (name : String)
  | deployMS (name : String)
  deriving DecidableEq, Repr

/-- Cloud/cluster state seen by the machine-set based RHOS deployer: the
security groups that exist and the names of the deployed machine sets. -/
structure RhosNewState where
  groups : List String
  machinesets : List String
  deriving DecidableEq, Repr

structure RhosNewResult where
  err : Option String
  state : RhosNewState
  calls : List RhosNewCall
  deriving DecidableEq, Repr

/-- Modelled from the spec: createGWSecurityGroup ensures the named external
security group exists, checking for existence first and skipping re-creation
if already present (spec invariant on every create operation). -/
def rhosEnsureGWSecurityGroup (s : RhosNewState) (groupName : String) :
    RhosNewState × List RhosNewCall :=
  if s.groups.contains groupName then (s, [])
  else ({ s with groups := s.groups ++ [groupName] }, [.createSG groupName])

/-- Modelled from the spec: msDeployer.Deploy applies a machine set,
checking for existence first and skipping re-creation if already present
(the ocp machine-set deployer is not among the extracted sources). -/
def msEnsureDeployed (s : RhosNewState) (name : String) :
    RhosNewState × List RhosNewCall :=
  if s.machinesets.contains name then (s, [])
  else ({ s with machinesets := s.machinesets ++ [name] }, [.deployMS name])

/-- The gateway machine-set name for an index: infraID-submariner-gw
followed by the index. -/
def rhosMSName (infraID : String) (i : Nat) : String :=
  infraID ++ "-submariner-gw" ++ toString i

/-- The machine-set deployment loop of deployGWNodes: deploy gateway machine
sets named infraID-submariner-gw0, -gw1, ... for indices 0 up to the number
still to deploy. -/
def rhosDeployMSLoop (infraID : String) :
    Nat → Nat → RhosNewState → List RhosNewCall → RhosNewState × List RhosNewCall
  | 0, _, s, calls => (s, calls)
  | k + 1, i, s, calls =>
      let (s2, t) := msEnsureDeployed s (rhosMSName infraID i)
      rhosDeployMSLoop infraID k (i + 1) s2 (calls ++ t)

/-- ocpGatewayDeployer.deployGWNodes (pkg/rhos/ocpgwdeployer.go): scale-down
(more current gateway nodes than desired) returns nil without any call;
otherwise deploy one machine set per missing gateway, by index. -/
def rhosDeployGWNodes (infraID : String) (gatewayCount numGatewayNodes : Nat)
    (s : RhosNewState) : RhosNewResult :=
  if gatewayCount < numGatewayNodes then ⟨none, s, []⟩
  else
    let (s2, calls) := rhosDeployMSLoop infraID (gatewayCount - numGatewayNodes) 0 s []
    ⟨none, s2, calls⟩

/-- ocpGatewayDeployer.Deploy (pkg/rhos/ocpgwdeployer.go, machine-set
variant): create the gateway security group, list the gateway machine sets,
succeed when the delta is zero, otherwise hand off to deployGWNodes.
Only a non-negative desired count is meaningful here (api.GatewayDeployInput
documents Gateways as a count). -/
def rhosDeploy (infraID : String) (s : RhosNewState) (gateways : Nat) :
    RhosNewResult :=
  match rhosEnsureGWSecurityGroup s (infraID ++ gwSecurityGroupSuffix) with
  | (s1, t1) =>
      if gateways = s1.machinesets.length then ⟨none, s1, t1⟩
      else
        let r := rhosDeployGWNodes infraID gateways s1.machinesets.length s1
        ⟨r.err, r.state, t1 ++ r.calls⟩

/-! ## RHOS gateway deployer, node-labeling version (pkg/rhos/ocpgwdeployer.go,
api.Reporter variant)

This variant labels existing worker nodes and opens a per-node gateway port.
openGatewayPort lives in a repository file that is not among the extracted
sources; it is modelled from the spec as an idempotent per-node ensure. -/

/-- Modelled from the spec: the node label consulted by the RHOS deployer to
recognise a node already configured as a gateway — the well-known gateway
marker submariner.io/gateway (the rhos constants file is not among the
extracted sources). -/
def rhosSubmarinerGatewayNodeTag : String := submarinerGatewayLabel

/-- A mutation call issued by the node-labeling RHOS Deploy. -/
inductive RhosOldCall where
  | createSG (name : String)
  | addGWLabel (node : String)
  | openGWPort (node : String)
  deriving DecidableEq, Repr

/-- State seen by the node-labeling RHOS deployer: the Kubernetes cluster,
the existing security groups, and the nodes whose gateway port is open. -/
structure RhosOldState where
  cluster : Cluster
  groups : List String
  openedPorts : List String
  deriving DecidableEq, Repr

/-- Result of the node-labeling RHOS Deploy; failure messages passed to
reporter.Failed are recorded separately from the returned error. -/
structure RhosOldResult where
  err : Option String
  state : RhosOldState
  calls : List RhosOldCall
  failedReports : List String
  deriving DecidableEq, Repr

/-- The message given to reporter.Failed when worker nodes run out. -/
def rhosInsufficientNodesMsg : String :=
  "there are insufficient nodes to deploy the required number of gateways"

/-- Modelled from the spec: createGWSecurityGroup for the node-labeling
variant, an idempotent check-then-create of the named security group. -/
def rhosOldEnsureSG (s : RhosOldState) (groupName : String) :
    RhosOldState × List RhosOldCall :=
  if s.groups.contains groupName then (s, [])
  else ({ s with groups := s.groups ++ [groupName] }, [.createSG groupName])

/-- Modelled from the spec: openGatewayPort opens the per-node gateway port
configuration, skipping nodes already configured. -/
def rhosOpenGatewayPort (s : RhosOldState) (nodeName : String) :
    RhosOldState × List RhosOldCall :=
  if s.openedPorts.contains nodeName then (s, [])
  else ({ s with openedPorts := s.openedPorts ++ [nodeName] }, [.openGWPort nodeName])

/-- Nodes matching the label selector "node-role.kubernetes.io/worker": the
worker label key is present. -/
def listWorkerNodes (c : Cluster) : List Node :=
  c.nodes.filter (fun n => hasLabelKey n "node-role.kubernetes.io/worker")

/-- The worker-labeling loop of the node-labeling RHOS Deploy: skip nodes
already tagged as gateways, label the rest and open their gateway port,
stopping when the remaining count reaches zero; when the workers run out
with a positive remainder, report the insufficiency and return nil. -/
def rhosOldLoop (groupName : String) :
    List Node → RhosOldState → Int → List RhosOldCall → RhosOldResult
  | [], s, toDeploy, calls =>
      if 0 < toDeploy then ⟨none, s, calls, [rhosInsufficientNodesMsg]⟩
      else ⟨none, s, calls, []⟩
  | n :: rest, s, toDeploy, calls =>
      if getLabel n rhosSubmarinerGatewayNodeTag == some "true" then
        rhosOldLoop groupName rest s toDeploy calls
      else
        let s2 := { s with cluster := addGWLabelOnNode s.cluster n.name }
        let calls2 := calls ++ [RhosOldCall.addGWLabel n.name]
        let (s3, t3) := rhosOpenGatewayPort s2 n.name
        let calls3 := calls2 ++ t3
        if toDeploy - 1 ≤ 0 then ⟨none, s3, calls3, []⟩
        else rhosOldLoop groupName rest s3 (toDeploy - 1) calls3

/-- ocpGatewayDeployer.Deploy (pkg/rhos/ocpgwdeployer.go, api.Reporter
variant): ensure the gateway security group, then — when the current
gateway-node count is below the desired count — label untagged worker nodes
and open their gateway ports; when worker nodes run out, report the failure
through the reporter and return nil. -/
def rhosOldDeploy (infraID : String) (s : RhosOldState) (gateways : Int) :
    RhosOldResult :=
  match rhosOldEnsureSG s (infraID ++ gwSecurityGroupSuffix) with
  | (s1, t1) =>
      if (gwCount s1.cluster : Int) = gateways then ⟨none, s1, t1, []⟩
      else if (gwCount s1.cluster : Int) < gateways then
        let r := rhosOldLoop (infraID ++ gwSecurityGroupSuffix)
          (listWorkerNodes s1.cluster) s1 (gateways - gwCount s1.cluster) []
        ⟨r.err, r.state, t1 ++ r.calls, r.failedReports⟩
      else ⟨none, s1, t1, []⟩

/-! ## Azure OCP gateway deployer (pkg/azure ocpgwdeployer, armnetwork
variant)

The machine-set YAML template and ocp helper functions (RemoveDuplicates,
the machine-set deployer) live in repository files that are not among the
extracted sources; they are modelled from the spec.  The random UUID suffix
of MachineName is modelled by a deterministic per-invocation index. -/

/-- internalSecurityGroupSuffix (pkg/azure). -/
def internalSecurityGroupSuffix : String := "-nsg"

/-- externalSecurityGroupSuffix (pkg/azure). -/
def externalSecurityGroupSuffix : String := "-submariner-external-sg"

/-- internalSecurityRulePrefix (pkg/azure). -/
def internalSecurityRulePrefix : String := "Submariner-Internal-"

/-- externalSecurityRulePrefix (pkg/azure). -/
def externalSecurityRulePrefix : String := "Submariner-External-"

/-- allNetworkCIDR (pkg/azure). -/
def allNetworkCIDR : String := "0.0.0.0/0"

/-- basePriorityInternal (pkg/azure). -/
def basePriorityInternal : Int := 2500

/-- baseExternalInternal (pkg/azure). -/
def baseExternalInternal : Int := 3500

/-- azureVirtualMachines (pkg/azure ocpgwdeployer). -/
def azureVirtualMachines : String := "virtualMachines"

/-- A resource SKU as consumed by getAvailabilityZones: its resource type,
its name, and the zones of its first location info entry. -/
structure ResourceSKU where
  resourceType : String
  name : String
  zones : List String
  deriving DecidableEq, Repr

/-- Insertion into a string set (k8s.io/utils/set), modelled as an
insertion-ordered duplicate-free list. -/
def strSetInsert (l : List String) (z : String) : List String :=
  if l.contains z then l else l ++ [z]

/-- ocpGatewayDeployer.getAvailabilityZones (pkg/azure ocpgwdeployer):
collect the zones recorded in the existing gateway machine sets
(spec.template.spec.providerSpec.value.zone), then walk the resource SKUs of
the region and, for each zone offering the configured instance type, mark it
eligible unless region-"-"-zone is among the recorded zones. -/
def getAvailabilityZones (region instanceType : String)
    (gwNodeZones : List String) (skus : List ResourceSKU) : List String :=
  let zonesWithSubmarinerGW := gwNodeZones.foldl strSetInsert []
  skus.foldl
    (fun acc sku =>
      if sku.resourceType == azureVirtualMachines && sku.name == instanceType then
        sku.zones.foldl
          (fun acc2 zone =>
            if zonesWithSubmarinerGW.contains (region ++ "-" ++ zone) then acc2
            else strSetInsert acc2 zone)
          acc
      else acc)
    []

/-- Modelled from the spec: the machine-set template renders the supplied
availability zone into the machine set's placement field
(spec.template.spec.providerSpec.value.zone); deployGateway passes the zone
exactly as drawn from the eligible-zone set (the gw-machineset YAML template
is not among the extracted sources). -/
def machineSetZoneField (az : String) : String := az

/-- Modelled from the spec (stated in the spec's own words, for comparison
with the source's getAvailabilityZones): the placement resolver returns the
zones in which the instance type has a resource-SKU offering, minus every
zone already hosting a gateway machine set. -/
def resolveEligibleZonesSpec (instanceType : String)
    (gwNodeZones : List String) (skus : List ResourceSKU) : List String :=
  (skus.foldl
    (fun acc sku =>
      if sku.resourceType == azureVirtualMachines && sku.name == instanceType then
        sku.zones.foldl strSetInsert acc
      else acc)
    []).filter (fun z => !(gwNodeZones.contains z))

/-- A port specification (api.PortSpec). -/
structure PortSpec where
  port : Nat
  protocol : String
  deriving DecidableEq, Repr

/-- An Azure SecurityRule (network/armnetwork) as this code constructs and
reads it: the optional name and the property fields the code sets. -/
structure AzSecurityRule where
  name : Option String
  protocol : String
  destPortRange : String
  srcPrefix : String
  destPrefix : String
  srcPortRange : String
  access : String
  direction : String
  priority : Int
  deriving DecidableEq, Repr

/-- An Azure SecurityGroup: its rules and attached interfaces. -/
structure AzSecurityGroup where
  securityRules : List AzSecurityRule
  networkInterfaces : Option (List String)
  deriving DecidableEq, Repr

/-- A gateway machine set as the Azure deployer sees it: its name and the
zone recorded in its provider spec. -/
structure AzMachineSet where
  name : String
  zone : String
  deriving DecidableEq, Repr

/-- A provider or Kubernetes mutation call issued by the Azure Deploy. -/
inductive AzCall where
  | createSG (name : String)
  | prepareInterface (node : String)
  | deployMS (name : String) (zone : String)
  deriving DecidableEq, Repr

/-- State seen by the Azure OCP gateway deployer: gateway machine sets,
gateway-labeled node names, the security groups that exist (by name, with
their contents), nodes whose gateway interface is prepared, and the
region's resource SKUs. -/
structure AzState where
  machinesets : List AzMachineSet
  gwNodes : List String
  groups : List (String × AzSecurityGroup)
  preparedNodes : List String
  skus : List ResourceSKU
  deriving DecidableEq, Repr

structure AzResult where
  err : Option String
  state : AzState
  calls : List AzCall
  deriving DecidableEq, Repr

/-- Modelled from the spec: ocp.RemoveDuplicates returns the gateway nodes
not backed by one of the given machine sets (the ocp helper is not among the
extracted sources). -/
def azRemoveDuplicates (machinesets : List AzMachineSet)
    (gwNodes : List String) : List String :=
  gwNodes.filter (fun n => !(machinesets.any (fun ms => ms.name == n)))

/-- CloudInfo.createSecurityRule (armnetwork variant, package azure): an
allow rule named prefix-protocol-"-"-port-"-"-direction with all-network
source and destination prefixes and the given direction. -/
def createSecurityRuleArm (securityRulePrfix protocol : String) (port : Nat)
    (priority : Int) (ruleDirection : String) : AzSecurityRule :=
  { name := some (securityRulePrfix ++ protocol ++ "-" ++ toString port ++
      "-" ++ ruleDirection)
    protocol := protocol
    destPortRange := toString port ++ "-" ++ toString port
    srcPrefix := allNetworkCIDR
    destPrefix := allNetworkCIDR
    srcPortRange := "*"
    access := "Allow"
    direction := ruleDirection
    priority := priority }

/-- The external security rules createGWSecurityGroup builds: one inbound
and one outbound rule per port, priorities counting up from
baseExternalInternal in list order. -/
def azGWSecurityRules (ports : List PortSpec) : List AzSecurityRule :=
  ports.enum.foldl
    (fun securityRules ip =>
      securityRules ++
        [createSecurityRuleArm externalSecurityRulePrefix ip.2.protocol
           ip.2.port (baseExternalInternal + ip.1) "Inbound",
         createSecurityRuleArm externalSecurityRulePrefix ip.2.protocol
           ip.2.port (baseExternalInternal + ip.1) "Outbound"])
    []

/-- CloudInfo.checkIfSecurityGroupPresent (armnetwork variant, package
azure): whether the get of the named group succeeds. -/
def azCheckIfSecurityGroupPresent (s : AzState) (groupName : String) : Bool :=
  s.groups.any (fun p => p.1 == groupName)

/-- CloudInfo.createGWSecurityGroup (armnetwork variant, package azure):
return nil with no call when the group is already present; otherwise issue
one awaited create of a group carrying the external gateway rules. -/
def azCreateGWSecurityGroup (s : AzState) (groupName : String)
    (ports : List PortSpec) : AzState × List AzCall :=
  if azCheckIfSecurityGroupPresent s groupName then (s, [])
  else
    ({ s with groups :=
        s.groups ++ [(groupName, ⟨azGWSecurityRules ports, none⟩)] },
     [.createSG groupName])

/-- Modelled from the spec: prepareGWInterface opens the gateway port /
public-IP configuration on the named node, skipping nodes already prepared. -/
def azPrepareGWInterface (s : AzState) (nodeName : String) :
    AzState × List AzCall :=
  if s.preparedNodes.contains nodeName then (s, [])
  else ({ s with preparedNodes := s.preparedNodes ++ [nodeName] },
        [.prepareInterface nodeName])

/-- The per-existing-gateway-node preparation loop of the Azure Deploy. -/
def azPrepareLoop : List String → AzState → List AzCall → AzState × List AzCall
  | [], s, calls => (s, calls)
  | n :: rest, s, calls =>
      let (s2, t) := azPrepareGWInterface s n
      azPrepareLoop rest s2 (calls ++ t)

/-- MachineName (pkg/azure ocpgwdeployer) with the random UUID suffix
modelled by a deterministic index: subgw- plus the region truncated to 7
characters, a hyphen, and the index. -/
def azMachineName (region : String) (idx : Nat) : String :=
  let reg := if region.length > 7 then (region.toList.take 7).asString else region
  "subgw-" ++ reg ++ "-" ++ toString idx

/-- The dedicated-gateway deployment loop of deployDedicatedGWNode: deploy
one machine set per eligible zone until the remaining count reaches zero;
when the zones run out first, the code calls status.Error with the nil error
of getAvailabilityZones, so nil is returned. -/
def azDeployZonesLoop (region image : String) :
    List String → Nat → AzState → Int → List AzCall → AzResult
  | [], _, s, _, calls => ⟨none, s, calls⟩
  | zone :: rest, idx, s, toDeploy, calls =>
      let name := azMachineName region idx
      let s2 := { s with machinesets :=
        s.machinesets ++ [⟨name, machineSetZoneField zone⟩] }
      let calls2 := calls ++ [AzCall.deployMS name zone]
      if toDeploy - 1 ≤ 0 then ⟨none, s2, calls2⟩
      else azDeployZonesLoop region image rest (idx + 1) s2 (toDeploy - 1) calls2

/-- ocpGatewayDeployer.deployDedicatedGWNode (pkg/azure ocpgwdeployer):
resolve the eligible zones; an empty set (with a nil listing error) returns
status.Error of that nil error, hence nil; otherwise deploy one gateway
machine set per zone up to the remaining count. -/
def azDeployDedicatedGWNode (region instanceType image : String)
    (gwMachineSets : List AzMachineSet) (s : AzState) (toDeploy : Int) :
    AzResult :=
  if (getAvailabilityZones region instanceType
      (gwMachineSets.map AzMachineSet.zone) s.skus).length = 0 then
    ⟨none, s, []⟩
  else
    azDeployZonesLoop region image
      (getAvailabilityZones region instanceType
        (gwMachineSets.map AzMachineSet.zone) s.skus)
      0 s toDeploy []

/-- ocpGatewayDeployer.Deploy (pkg/azure ocpgwdeployer, armnetwork variant):
a zero desired count returns nil immediately with no provider or Kubernetes
call; otherwise create the external security group if absent (when machine
sets exist or the delta is nonzero), prepare the interface of every
gateway-labeled node, succeed on a zero delta, refuse a negative delta with
nil, and otherwise deploy dedicated gateway nodes. -/
def azureDeploy (infraID region instanceType image : String) (s : AzState)
    (publicPorts : List PortSpec) (gateways : Int) : AzResult :=
  if gateways = 0 then ⟨none, s, []⟩
  else
    let groupName := infraID ++ externalSecurityGroupSuffix
    let machineSets := s.machinesets
    let gwNodeItems := s.gwNodes
    let taggedExistingNodes := azRemoveDuplicates machineSets gwNodeItems
    let toDeploy : Int :=
      gateways - machineSets.length - taggedExistingNodes.length
    let (s1, t1) :=
      if machineSets.length ≠ 0 ∨ toDeploy ≠ 0 then
        azCreateGWSecurityGroup s groupName publicPorts
      else (s, [])
    let (s2, t2) := azPrepareLoop gwNodeItems s1 []
    if toDeploy = 0 then ⟨none, s2, t1 ++ t2⟩
    else if toDeploy < 0 then ⟨none, s2, t1 ++ t2⟩
    else
      let r := azDeployDedicatedGWNode region instanceType image machineSets s2 toDeploy
      ⟨r.err, r.state, t1 ++ t2 ++ r.calls⟩

/-! ## Azure security-group reconciliation (pkg/azure/securitygroups.go,
autorest variant) -/

/-- CloudInfo.createSecurityRule (pkg/azure/securitygroups.go): an inbound
allow rule named prefix-protocol-"-"-port with the port as its destination
range. -/
def createSecurityRule (securityRulePrfix srcIPPrefix destIPPrefix protocol : String)
    (port : Nat) (priority : Int) : AzSecurityRule :=
  { name := some (securityRulePrfix ++ protocol ++ "-" ++ toString port)
    protocol := protocol
    destPortRange := toString port ++ "-" ++ toString port
    srcPrefix := srcIPPrefix
    destPrefix := destIPPrefix
    srcPortRange := "*"
    access := "Allow"
    direction := "Inbound"
    priority := priority }

/-- The Azure resource-group state: the security groups that exist, keyed by
name (within the cluster's base resource group). -/
structure AzSGState where
  groups : List (String × AzSecurityGroup)
  deriving DecidableEq, Repr

/-- sgClient.Get: fetch a security group by name; a missing group is the
NotFound error of the SDK. -/
def sgGet (st : AzSGState) (name : String) : Option AzSecurityGroup :=
  (st.groups.find? (fun p => p.1 == name)).map (fun p => p.2)

/-- Store a security group under a name, replacing any previous value. -/
def sgPut (st : AzSGState) (name : String) (g : AzSecurityGroup) : AzSGState :=
  ⟨if st.groups.any (fun p => p.1 == name) then
      st.groups.map (fun p => if p.1 == name then (name, g) else p)
    else st.groups ++ [(name, g)]⟩

/-- Remove a security group by name. -/
def sgRemove (st : AzSGState) (name : String) : AzSGState :=
  ⟨st.groups.filter (fun p => !(p.1 == name))⟩

/-- A mutation call issued against the Azure security-groups client; the
createOrUpdate call carries the full group it writes and is awaited
(WaitForCompletionRef) before the operation returns. -/
inductive AzSGCall where
  | createOrUpdate (group : String) (value : AzSecurityGroup)
  | delete (group : String)
  deriving DecidableEq, Repr

/-- Errors surfaced by the security-group operations (wrapped provider
errors; only the group fetch can fail in this embedding). -/
inductive AzSGErr where
  | getGroupFailed (group : String)
  deriving DecidableEq, Repr

structure AzSGResult where
  err : Option AzSGErr
  state : AzSGState
  calls : List AzSGCall
  deriving DecidableEq, Repr

/-- Whether a rule has a non-nil name containing the internal managed
prefix (the per-rule test of checkIfSecurityRulesPresent). -/
def isManagedInternalRule (r : AzSecurityRule) : Bool :=
  match r.name with
  | some n => strContains n internalSecurityRulePrefix
  | none => false

/-- The per-rule keep test of removeInternalFirewallRules: a non-nil name
that does not contain the internal managed prefix. -/
def isUnmanagedInternalRule (r : AzSecurityRule) : Bool :=
  match r.name with
  | some n => !(strContains n internalSecurityRulePrefix)
  | none => false

/-- The internal rules openInternalPorts appends, one per port, priorities
counting up from basePriorityInternal in list order. -/
def desiredInternalRules (ports : List PortSpec) : List AzSecurityRule :=
  ports.enum.map (fun ip =>
    createSecurityRule internalSecurityRulePrefix allNetworkCIDR
      allNetworkCIDR ip.2.protocol ip.2.port (basePriorityInternal + ip.1))

/-- checkIfSecurityRulesPresent (pkg/azure/securitygroups.go): whether any
rule with a non-nil name contains the internal managed prefix. -/
def checkIfSecurityRulesPresent (g : AzSecurityGroup) : Bool :=
  g.securityRules.any isManagedInternalRule

/-- CloudInfo.openInternalPorts (pkg/azure/securitygroups.go): fetch the
internal security group (a failed fetch is an error); if any rule bearing
the managed prefix is present, return nil with no call; otherwise append
one internal rule per port to the existing rules and issue a single
awaited createOrUpdate. -/
def openInternalPorts (infraID : String) (ports : List PortSpec)
    (st : AzSGState) : AzSGResult :=
  match sgGet st (infraID ++ internalSecurityGroupSuffix) with
  | none => ⟨some (.getGroupFailed (infraID ++ internalSecurityGroupSuffix)), st, []⟩
  | some g =>
      if checkIfSecurityRulesPresent g then ⟨none, st, []⟩
      else
        let g2 := { g with securityRules :=
          g.securityRules ++ desiredInternalRules ports }
        ⟨none, sgPut st (infraID ++ internalSecurityGroupSuffix) g2,
          [.createOrUpdate (infraID ++ internalSecurityGroupSuffix) g2]⟩

/-- CloudInfo.removeInternalFirewallRules (pkg/azure/securitygroups.go):
fetch the internal security group (a failed fetch is an error); keep only
the rules whose non-nil name does not contain the internal managed prefix,
and issue a single awaited createOrUpdate with the filtered list. -/
def removeInternalFirewallRules (infraID : String) (st : AzSGState) :
    AzSGResult :=
  match sgGet st (infraID ++ internalSecurityGroupSuffix) with
  | none => ⟨some (.getGroupFailed (infraID ++ internalSecurityGroupSuffix)), st, []⟩
  | some g =>
      let g2 := { g with securityRules :=
        g.securityRules.filter isUnmanagedInternalRule }
      ⟨none, sgPut st (infraID ++ internalSecurityGroupSuffix) g2,
        [.createOrUpdate (infraID ++ internalSecurityGroupSuffix) g2]⟩

/-- checkIfSecurityGroupPresent (pkg/azure/securitygroups.go): whether the
get of the named group succeeds. -/
def checkIfSecurityGroupPresent (st : AzSGState) (groupName : String) : Bool :=
  (sgGet st groupName).isSome

/-- CloudInfo.RemoveGWFirewallRules (pkg/azure/securitygroups.go): when the
external gateway security group is absent, return nil with no call;
otherwise detach its network interfaces with an awaited createOrUpdate and
delete the group with an awaited delete. -/
def removeGWFirewallRules (infraID : String) (st : AzSGState) : AzSGResult :=
  if !(checkIfSecurityGroupPresent st (infraID ++ externalSecurityGroupSuffix)) then
    ⟨none, st, []⟩
  else
    match sgGet st (infraID ++ externalSecurityGroupSuffix) with
    | none => ⟨some (.getGroupFailed (infraID ++ externalSecurityGroupSuffix)), st, []⟩
    | some g =>
        let g2 := { g with networkInterfaces := none }
        ⟨none,
          sgRemove (sgPut st (infraID ++ externalSecurityGroupSuffix) g2)
            (infraID ++ externalSecurityGroupSuffix),
          [.createOrUpdate (infraID ++ externalSecurityGroupSuffix) g2,
           .delete (infraID ++ externalSecurityGroupSuffix)]⟩

/-- The rules of the named group after an operation (empty when absent). -/
def rulesOf (st : AzSGState) (groupName : String) : List AzSecurityRule :=
  match sgGet st groupName with
  | some g => g.securityRules
  | none => []

/-! ## GCP firewall-rule deletion (pkg/gcp/gcp.go) -/

/-- A GCP client error: the not-found error recognised by
client.IsGCPNotFoundError, or any other provider error. -/
inductive GcpErr where
  | notFound (name : String)
  | other (msg : String)
  deriving DecidableEq, Repr

/-- gcpclient.IsGCPNotFoundError. -/
def isGCPNotFoundError : GcpErr → Bool
  | .notFound _ => true
  | .other _ => false

/-- The GCP project state: the names of the existing firewall rules. -/
structure GcpState where
  firewallRules : List String
  deriving DecidableEq, Repr

/-- client.DeleteFirewallRule: delete the named rule, failing with the
not-found error when it does not exist. -/
def clientDeleteFirewallRule (st : GcpState) (name : String) :
    Except GcpErr GcpState :=
  if st.firewallRules.contains name then
    .ok ⟨st.firewallRules.filter (fun r => !(r == name))⟩
  else .error (.notFound name)

/-- gcpCloud.deleteFirewallRule (pkg/gcp/gcp.go): delete the named firewall
rule, swallowing the not-found error as success. -/
def deleteFirewallRule (st : GcpState) (name : String) :
    Option GcpErr × GcpState :=
  match clientDeleteFirewallRule st name with
  | .error e => if !(isGCPNotFoundError e) then (some e, st) else (none, st)
  | .ok st2 => (none, st2)

/-! ## AWS security-group revocation (pkg/aws/subnets.go) -/

/-- internalTraffic (pkg/aws/securitygroups.go). -/
def internalTraffic : String := "Internal Submariner traffic"

/-- An EC2 UserIdGroupPair: the optional description this code reads. -/
structure UserIdGroupPair where
  description : Option String
  deriving DecidableEq, Repr

/-- An EC2 IpPermission: its protocol/ports and its group pairs. -/
structure IpPermission where
  ipProtocol : String
  fromPort : Int
  toPort : Int
  userIdGroupPairs : List UserIdGroupPair
  deriving DecidableEq, Repr

/-- An EC2 SecurityGroup: its id and its ingress permissions. -/
structure AwsSecurityGroup where
  groupId : Option String
  ipPermissions : List IpPermission
  deriving DecidableEq, Repr

/-- A mutation call issued against the EC2 client by the revoke path. -/
inductive AwsCall where
  | revokeIngress (groupId : Option String) (permissions : List IpPermission)
  deriving DecidableEq, Repr

/-- Whether a permission belongs to the managed internal rule set: some
group pair's description contains the internalTraffic marker. -/
def isInternalPermission (p : IpPermission) : Bool :=
  p.userIdGroupPairs.any (fun q =>
    match q.description with
    | some d => strContains d internalTraffic
    | none => false)

/-- awsCloud.revokePortsFromGroup (pkg/aws/subnets.go): collect the
permissions whose group-pair description marks them as managed internal
traffic; when none are found, return nil without issuing a revoke call;
otherwise issue a single RevokeSecurityGroupIngress for them. -/
def revokePortsFromGroup (group : AwsSecurityGroup) :
    Option String × List AwsCall :=
  let permissionsToRevoke := group.ipPermissions.filter isInternalPermission
  if permissionsToRevoke.length = 0 then (none, [])
  else (none, [.revokeIngress group.groupId permissionsToRevoke])

/-! ## AWS retry helper (pkg/aws/vpc_peerings.go) -/

/-- attempts (pkg/aws/vpc_peerings.go). -/
def attempts : Nat := 3

/-- The retry loop of runWithRetries: call f, decrement the remaining
retries and continue on failure, return nil immediately on success, and
return the last error when the retries run out.  The wrapped function is
modelled as a map from invocation index to the error of that invocation
(none meaning success); the result carries the returned error and the
number of invocations made. -/
def runWithRetriesLoop (f : Nat → Option String) :
    Nat → Nat → Option String → Option String × Nat
  | 0, idx, lastErr => (lastErr, idx)
  | r + 1, idx, _ =>
      match f idx with
      | some e => runWithRetriesLoop f r (idx + 1) (some e)
      | none => (none, idx + 1)

/-- runWithRetries (pkg/aws/vpc_peerings.go). -/
def runWithRetries (f : Nat → Option String) : Option String × Nat :=
  runWithRetriesLoop f attempts 0 none

/-! ## Supporting lemmas: node labeling -/

theorem name_labelGW (nm : String) (m : Node) : (labelGW nm m).name = m.name := by
  unfold labelGW
  split <;> rfl

theorem taints_labelGW (nm : String) (m : Node) :
    (labelGW nm m).taints = m.taints := by
  unfold labelGW
  split <;> rfl

theorem isMasterNode_labelGW (nm : String) (m : Node) :
    isMasterNode (labelGW nm m) = isMasterNode m := by
  unfold isMasterNode
  rw [taints_labelGW]

theorem labelGW_noop (nm : String) (m : Node) (h : (m.name == nm) = false) :
    labelGW nm m = m := by
  unfold labelGW
  simp [h]

theorem find?_setLabel (ls : List (String × String)) (k v : String) :
    (setLabel ls k v).find? (fun p => p.1 == k) = some (k, v) := by
  unfold setLabel
  by_cases hany : ls.any (fun p => p.1 == k)
  · simp only [hany, if_true]
    induction ls with
    | nil => simp at hany
    | cons p ps ih =>
        by_cases hp : (p.1 == k) = true
        · have hpk : p.1 = k := by simpa using hp
          simp [List.find?, hp, hpk]
        · rw [Bool.not_eq_true] at hp
          have hps : ps.any (fun p => p.1 == k) = true := by
            simp only [List.any_cons, hp, Bool.false_or] at hany
            exact hany
          simp only [List.map_cons, hp, Bool.false_eq_true, if_false, List.find?]
          exact ih hps
  · rw [Bool.not_eq_true] at hany
    simp only [hany, Bool.false_eq_true, if_false]
    have hall : ∀ p ∈ ls, ¬((fun p : String × String => p.1 == k) p = true) := by
      intro p hp
      rw [List.any_eq_false] at hany
      simpa using hany p hp
    rw [List.find?_append, List.find?_eq_none.mpr hall]
    simp [List.find?]

theorem getLabel_labelGW_self (nm : String) (m : Node)
    (h : (m.name == nm) = true) :
    getLabel (labelGW nm m) submarinerGatewayLabel = some "true" := by
  unfold labelGW getLabel
  simp only [h, if_true]
  rw [find?_setLabel]
  rfl

theorem isGWNode_labelGW_self (nm : String) (m : Node)
    (h : (m.name == nm) = true) : isGWNode (labelGW nm m) = true := by
  unfold isGWNode
  rw [getLabel_labelGW_self nm m h]
  rfl

theorem hasLabelKey_labelGW_self (nm : String) (m : Node)
    (h : (m.name == nm) = true) :
    hasLabelKey (labelGW nm m) submarinerGatewayLabel = true := by
  unfold labelGW hasLabelKey
  simp only [h, if_true]
  rw [find?_setLabel]
  rfl

theorem isGWNode_of_no_key (m : Node)
    (h : hasLabelKey m submarinerGatewayLabel = false) : isGWNode m = false := by
  unfold hasLabelKey at h
  unfold isGWNode getLabel
  cases hfind : m.labels.find? (fun p => p.1 == submarinerGatewayLabel) with
  | none => rfl
  | some p => rw [hfind] at h; simp at h

/-- Labeling one existing, unlabeled node in a cluster with duplicate-free
node names adds exactly one gateway-labeled node. -/
theorem filter_isGW_map_labelGW (n : Node) :
    ∀ l : List Node, (l.map Node.name).Nodup → n ∈ l →
      hasLabelKey n submarinerGatewayLabel = false →
      ((l.map (labelGW n.name)).filter isGWNode).length =
        (l.filter isGWNode).length + 1 := by
  intro l
  induction l with
  | nil => intro _ hmem; exact absurd hmem (List.not_mem_nil n)
  | cons m rest ih =>
      intro hnd hmem hkey
      have hndrest : (rest.map Node.name).Nodup := (List.nodup_cons.mp hnd).2
      have hmnotin : m.name ∉ rest.map Node.name := (List.nodup_cons.mp hnd).1
      by_cases hname : (m.name == n.name) = true
      · have hmn : m.name = n.name := by simpa using hname
        have hnm : n = m := by
          rcases List.mem_cons.mp hmem with h | h
          · exact h
          · exact absurd (hmn ▸ List.mem_map_of_mem Node.name h) hmnotin
        have hrest : rest.map (labelGW n.name) = rest := by
          conv_rhs => rw [← List.map_id rest]
          apply List.map_congr_left
          intro r hr
          show labelGW n.name r = r
          apply labelGW_noop
          by_cases hc : (r.name == n.name) = true
          · exact absurd (hmn ▸ (by simpa using hc : r.name = n.name) ▸
              List.mem_map_of_mem Node.name hr) hmnotin
          · simpa using hc
        have hgwm : isGWNode m = false := isGWNode_of_no_key m (hnm ▸ hkey)
        have hgwlab : isGWNode (labelGW n.name m) = true :=
          isGWNode_labelGW_self n.name m hname
        simp [List.filter_cons, hgwm, hgwlab, hrest]
      · have hm2 : labelGW n.name m = m := labelGW_noop n.name m (by simpa using hname)
        have hnrest : n ∈ rest := by
          rcases List.mem_cons.mp hmem with h | h
          · exact absurd (by rw [h]; simp) hname
          · exact h
        have := ih hndrest hnrest hkey
        simp only [List.map_cons, hm2, List.filter_cons]
        by_cases hgw : isGWNode m = true
        · simp [hgw, this]
        · simp only [Bool.not_eq_true] at hgw
          simp [hgw, this]

/-- gwCount after AddGWLabelOnNode on an unlabeled existing node. -/
theorem gwCount_addGWLabelOnNode (c : Cluster) (n : Node)
    (hnd : (c.nodes.map Node.name).Nodup) (hn : n ∈ c.nodes)
    (hkey : hasLabelKey n submarinerGatewayLabel = false) :
    gwCount (addGWLabelOnNode c n.name) = gwCount c + 1 := by
  unfold gwCount listGatewayNodes addGWLabelOnNode
  exact filter_isGW_map_labelGW n c.nodes hnd hn hkey

/-! ## Supporting lemmas: the generic deploy loop -/

/-- Non-master nodes of a list (the nodes the labeling loop acts on). -/
def eligibleOf (l : List Node) : List Node :=
  l.filter (fun n => !(isMasterNode n))

/-- A loop over master nodes only skips everything. -/
theorem genericDeployLoop_masters (nw : Nat) (g : Int) :
    ∀ (pending : List Node) (c : Cluster) (t : Int) (calls : List K8sCall),
      (∀ n ∈ pending, isMasterNode n = true) →
      genericDeployLoop nw g pending c t calls =
        ⟨some (.insufficientWorkerNodes nw g), c, calls⟩ := by
  intro pending
  induction pending with
  | nil => intro c t calls _; rfl
  | cons n rest ih =>
      intro c t calls h
      have hn := h n (List.mem_cons_self n rest)
      simp only [genericDeployLoop, hn, if_true]
      exact ih c t calls (fun m hm => h m (List.mem_cons_of_mem n hm))

/-- When the non-master nodes run out before the remaining count does, the
loop returns the insufficiency error after labeling exactly the non-master
nodes of its snapshot (one addGWLabel call each, no further attempt). -/
theorem genericDeployLoop_insufficient (nw : Nat) (g : Int) :
    ∀ (pending : List Node) (c : Cluster) (t : Int) (calls : List K8sCall),
      ((eligibleOf pending).length : Int) < t →
      (genericDeployLoop nw g pending c t calls).err =
          some (.insufficientWorkerNodes nw g) ∧
      (genericDeployLoop nw g pending c t calls).calls =
          calls ++ (eligibleOf pending).map (fun n => K8sCall.addGWLabel n.name) := by
  intro pending
  induction pending with
  | nil =>
      intro c t calls _
      exact ⟨rfl, by simp [genericDeployLoop, eligibleOf]⟩
  | cons n rest ih =>
      intro c t calls hlt
      by_cases hm : isMasterNode n = true
      · have he : eligibleOf (n :: rest) = eligibleOf rest := by
          simp [eligibleOf, List.filter_cons, hm]
        rw [he] at hlt
        simpa [genericDeployLoop, hm, he] using ih c t calls hlt
      · rw [Bool.not_eq_true] at hm
        have he : eligibleOf (n :: rest) = n :: eligibleOf rest := by
          simp [eligibleOf, List.filter_cons, hm]
        rw [he] at hlt
        simp only [List.length_cons] at hlt
        have ht : ¬(t - 1 ≤ 0) := by
          push_cast at hlt
          omega
        have hlt2 : ((eligibleOf rest).length : Int) < t - 1 := by
          push_cast at hlt ⊢
          omega
        have := ih (addGWLabelOnNode c n.name) (t - 1)
          (calls ++ [K8sCall.addGWLabel n.name]) hlt2
        simp only [genericDeployLoop, hm, Bool.false_eq_true, if_false, ht]
        refine ⟨this.1, ?_⟩
        rw [this.2, he]
        simp

/-- When the loop succeeds, it has labeled exactly the remaining count of
distinct, existing, unlabeled nodes, so the gateway count grows by that
count. -/
theorem genericDeployLoop_success_count (nw : Nat) (g : Int) :
    ∀ (pending : List Node) (c : Cluster) (t : Int) (calls : List K8sCall),
      (c.nodes.map Node.name).Nodup →
      (∀ n ∈ pending, n ∈ c.nodes ∧ hasLabelKey n submarinerGatewayLabel = false) →
      (pending.map Node.name).Nodup →
      1 ≤ t →
      (genericDeployLoop nw g pending c t calls).err = none →
      (gwCount (genericDeployLoop nw g pending c t calls).cluster : Int) =
        gwCount c + t := by
  intro pending
  induction pending with
  | nil =>
      intro c t calls _ _ _ _ herr
      exact absurd herr (by simp [genericDeployLoop])
  | cons n rest ih =>
      intro c t calls hnd hp hpnd ht herr
      have hpnd2 : (rest.map Node.name).Nodup := by
        simp only [List.map_cons, List.nodup_cons] at hpnd
        exact hpnd.2
      have hnn : n.name ∉ rest.map Node.name := by
        simp only [List.map_cons, List.nodup_cons] at hpnd
        exact hpnd.1
      by_cases hm : isMasterNode n = true
      · have heq : genericDeployLoop nw g (n :: rest) c t calls =
            genericDeployLoop nw g rest c t calls := by
          simp [genericDeployLoop, hm]
        rw [heq] at herr ⊢
        exact ih c t calls hnd
          (fun m hmem => hp m (List.mem_cons_of_mem n hmem)) hpnd2 ht herr
      · rw [Bool.not_eq_true] at hm
        obtain ⟨hnc, hnkey⟩ := hp n (List.mem_cons_self n rest)
        have hcount := gwCount_addGWLabelOnNode c n hnd hnc hnkey
        by_cases ht1 : t - 1 ≤ 0
        · have ht' : t = 1 := by omega
          simp only [genericDeployLoop, hm, Bool.false_eq_true, if_false,
            ht1, if_true]
          rw [hcount, ht']
          push_cast
          ring
        · simp only [genericDeployLoop, hm, Bool.false_eq_true, if_false,
            ht1, if_false] at herr ⊢
          have hnd2 : ((addGWLabelOnNode c n.name).nodes.map Node.name).Nodup := by
            show ((c.nodes.map (labelGW n.name)).map Node.name).Nodup
            rw [List.map_map]
            have hfn : (Node.name ∘ labelGW n.name) = Node.name :=
              funext (fun m => name_labelGW n.name m)
            rw [hfn]
            exact hnd
          have hp2 : ∀ m ∈ rest, m ∈ (addGWLabelOnNode c n.name).nodes ∧
              hasLabelKey m submarinerGatewayLabel = false := by
            intro m hmem
            obtain ⟨hmc, hmkey⟩ := hp m (List.mem_cons_of_mem n hmem)
            have hmne : (m.name == n.name) = false := by
              have hin : m.name ∈ rest.map Node.name :=
                List.mem_map_of_mem Node.name hmem
              by_cases hc : m.name = n.name
              · exact absurd (hc ▸ hin) hnn
              · simpa using hc
            refine ⟨?_, hmkey⟩
            show m ∈ c.nodes.map (labelGW n.name)
            have hid : labelGW n.name m = m := labelGW_noop n.name m hmne
            exact hid ▸ List.mem_map_of_mem (labelGW n.name) hmc
          have ht2 : 1 ≤ t - 1 := by omega
          have hrec := ih (addGWLabelOnNode c n.name) (t - 1)
            (calls ++ [K8sCall.addGWLabel n.name]) hnd2 hp2 hpnd2 ht2 herr
          rw [hrec, hcount]
          push_cast
          ring

/-- After a loop run that ends in the insufficiency error, the cluster has
no non-master node without the gateway label key left: every eligible node
was labeled. -/
theorem genericDeployLoop_err_no_eligible (nw : Nat) (g : Int) :
    ∀ (pending : List Node) (c : Cluster) (t : Int) (calls : List K8sCall),
      (∀ m ∈ c.nodes, isMasterNode m = false →
        hasLabelKey m submarinerGatewayLabel = false →
        ∃ n ∈ pending, n.name = m.name ∧ isMasterNode n = false) →
      (genericDeployLoop nw g pending c t calls).err ≠ none →
      ∀ m ∈ (genericDeployLoop nw g pending c t calls).cluster.nodes,
        isMasterNode m = false →
        hasLabelKey m submarinerGatewayLabel = false → False := by
  intro pending
  induction pending with
  | nil =>
      intro c t calls hinv _ m hm hmm hmk
      obtain ⟨n, hn, -⟩ := hinv m hm hmm hmk
      exact absurd hn (List.not_mem_nil n)
  | cons n rest ih =>
      intro c t calls hinv herr
      by_cases hm : isMasterNode n = true
      · have heq : genericDeployLoop nw g (n :: rest) c t calls =
            genericDeployLoop nw g rest c t calls := by
          simp [genericDeployLoop, hm]
        rw [heq] at herr ⊢
        refine ih c t calls ?_ herr
        intro m hmc hmm hmk
        obtain ⟨n2, hn2, hname, hnm⟩ := hinv m hmc hmm hmk
        rcases List.mem_cons.mp hn2 with h | h
        · exact absurd (h ▸ hnm) (by simp [hm])
        · exact ⟨n2, h, hname, hnm⟩
      · rw [Bool.not_eq_true] at hm
        by_cases ht1 : t - 1 ≤ 0
        · exact absurd (by simp [genericDeployLoop, hm, ht1]) herr
        · have heq : genericDeployLoop nw g (n :: rest) c t calls =
              genericDeployLoop nw g rest (addGWLabelOnNode c n.name) (t - 1)
                (calls ++ [K8sCall.addGWLabel n.name]) := by
            simp [genericDeployLoop, hm, ht1]
          rw [heq] at herr ⊢
          refine ih (addGWLabelOnNode c n.name) (t - 1)
            (calls ++ [K8sCall.addGWLabel n.name]) ?_ herr
          intro m hmc hmm hmk
          obtain ⟨m0, hm0c, hm0eq⟩ := List.mem_map.mp hmc
          have hmm0 : isMasterNode m0 = false := by
            rw [← hm0eq, isMasterNode_labelGW] at hmm
            exact hmm
          have hne : (m0.name == n.name) = false := by
            by_cases hc : (m0.name == n.name) = true
            · rw [← hm0eq] at hmk
              rw [hasLabelKey_labelGW_self n.name m0 hc] at hmk
              exact absurd hmk (by simp)
            · simpa using hc
          have hm0m : m0 = m := by rw [← hm0eq, labelGW_noop n.name m0 hne]
          obtain ⟨n2, hn2, hname, hnm⟩ := hinv m0 hm0c hmm0 (hm0m ▸ hmk)
          rcases List.mem_cons.mp hn2 with h | h
          · rw [h] at hname
            exact absurd hname.symm (by simpa using hne)
          · exact ⟨n2, h, hm0m ▸ hname, hnm⟩

/-- The membership and uniqueness facts the loop needs about its initial
snapshot of unlabeled nodes. -/
theorem nonGW_snapshot_facts (c : Cluster)
    (hnd : (c.nodes.map Node.name).Nodup) :
    (∀ n ∈ listNodesWithoutGWLabel c, n ∈ c.nodes ∧
        hasLabelKey n submarinerGatewayLabel = false) ∧
    ((listNodesWithoutGWLabel c).map Node.name).Nodup := by
  constructor
  · intro n hn
    have := List.mem_filter.mp hn
    exact ⟨this.1, by simpa using this.2⟩
  · exact hnd.sublist (List.Sublist.map Node.name (List.filter_sublist c.nodes))

/-- The zero-delta branch of the generic Deploy. -/
theorem genericDeploy_delta_zero (c : Cluster) (g : Int)
    (h : g - (gwCount c : Int) = 0) : genericDeploy c g = ⟨none, c, []⟩ := by
  simp [genericDeploy, h]

/-- The negative-delta (scale-down) branch of the generic Deploy. -/
theorem genericDeploy_delta_neg (c : Cluster) (g : Int)
    (h : g - (gwCount c : Int) < 0) : genericDeploy c g = ⟨none, c, []⟩ := by
  have h0 : ¬(g - (gwCount c : Int) = 0) := by omega
  simp only [genericDeploy, h0, if_false, h, if_true]

/-- The positive-delta branch of the generic Deploy runs the labeling loop. -/
theorem genericDeploy_delta_pos (c : Cluster) (g : Int)
    (h : 0 < g - (gwCount c : Int)) :
    genericDeploy c g =
      genericDeployLoop (listNodesWithoutGWLabel c).length g
        (listNodesWithoutGWLabel c) c (g - gwCount c) [] := by
  have h0 : ¬(g - (gwCount c : Int) = 0) := by omega
  have h1 : ¬(g - (gwCount c : Int) < 0) := by omega
  simp only [genericDeploy, h0, if_false, h1]

/-- Running the generic Deploy a second time on the cluster the first run
left behind issues no mutation call and leaves the cluster unchanged. -/
theorem genericDeploy_second_noop (c : Cluster) (g : Int)
    (hnd : (c.nodes.map Node.name).Nodup) :
    (genericDeploy (genericDeploy c g).cluster g).calls = [] ∧
    (genericDeploy (genericDeploy c g).cluster g).cluster =
      (genericDeploy c g).cluster := by
  by_cases h0 : g - (gwCount c : Int) = 0
  · rw [genericDeploy_delta_zero c g h0]
    rw [genericDeploy_delta_zero c g h0]
    exact ⟨rfl, rfl⟩
  · by_cases hneg : g - (gwCount c : Int) < 0
    · rw [genericDeploy_delta_neg c g hneg]
      rw [genericDeploy_delta_neg c g hneg]
      exact ⟨rfl, rfl⟩
    · have hpos : 0 < g - (gwCount c : Int) := by omega
      have hr1 := genericDeploy_delta_pos c g hpos
      obtain ⟨hp, hpnd⟩ := nonGW_snapshot_facts c hnd
      have ht : 1 ≤ g - (gwCount c : Int) := by omega
      cases herr : (genericDeploy c g).err with
      | none =>
          have hcount := genericDeployLoop_success_count
            (listNodesWithoutGWLabel c).length g (listNodesWithoutGWLabel c)
            c (g - gwCount c) [] hnd hp hpnd ht (by rwa [← hr1])
          rw [← hr1] at hcount
          have h02 : g - (gwCount (genericDeploy c g).cluster : Int) = 0 := by
            omega
          rw [genericDeploy_delta_zero _ g h02]
          exact ⟨rfl, rfl⟩
      | some e =>
          have hnoelig := genericDeployLoop_err_no_eligible
            (listNodesWithoutGWLabel c).length g (listNodesWithoutGWLabel c)
            c (g - gwCount c) []
            (fun m hmc hmm hmk =>
              ⟨m, List.mem_filter.mpr ⟨hmc, by simp [hmk]⟩, rfl, hmm⟩)
            (by rw [← hr1, herr]; simp)
          rw [← hr1] at hnoelig
          by_cases h02 : g - (gwCount (genericDeploy c g).cluster : Int) = 0
          · rw [genericDeploy_delta_zero _ g h02]
            exact ⟨rfl, rfl⟩
          · by_cases hneg2 : g - (gwCount (genericDeploy c g).cluster : Int) < 0
            · rw [genericDeploy_delta_neg _ g hneg2]
              exact ⟨rfl, rfl⟩
            · have hpos2 : 0 < g - (gwCount (genericDeploy c g).cluster : Int) := by
                omega
              have hmasters : ∀ n ∈ listNodesWithoutGWLabel
                  (genericDeploy c g).cluster, isMasterNode n = true := by
                intro n hn
                have hmem := List.mem_filter.mp hn
                by_cases hmn : isMasterNode n = true
                · exact hmn
                · exact absurd (hnoelig n hmem.1 (by simpa using hmn)
                    (by simpa using hmem.2)) not_false
              rw [genericDeploy_delta_pos _ g hpos2]
              rw [genericDeployLoop_masters _ g _ _ _ _ hmasters]
              exact ⟨rfl, rfl⟩

/-! ## Supporting lemmas: the RHOS machine-set deployer -/

theorem listContains_iff (l : List String) (x : String) :
    l.contains x = true ↔ x ∈ l := by
  simp [List.contains]

theorem msEnsureDeployed_groups (s : RhosNewState) (name : String) :
    (msEnsureDeployed s name).1.groups = s.groups := by
  unfold msEnsureDeployed
  split <;> rfl

theorem msEnsureDeployed_mem (s : RhosNewState) (name x : String)
    (hx : s.machinesets.contains x = true) :
    (msEnsureDeployed s name).1.machinesets.contains x = true := by
  unfold msEnsureDeployed
  split
  · exact hx
  · rw [listContains_iff] at hx ⊢
    exact List.mem_append_left _ hx

theorem msEnsureDeployed_self (s : RhosNewState) (name : String) :
    (msEnsureDeployed s name).1.machinesets.contains name = true := by
  unfold msEnsureDeployed
  split
  · assumption
  · simp

theorem msEnsureDeployed_len (s : RhosNewState) (name : String) :
    s.machinesets.length ≤ (msEnsureDeployed s name).1.machinesets.length := by
  unfold msEnsureDeployed
  split
  · exact Nat.le_refl _
  · simp

theorem msEnsureDeployed_noop (s : RhosNewState) (name : String)
    (h : s.machinesets.contains name = true) :
    msEnsureDeployed s name = (s, []) := by
  unfold msEnsureDeployed
  simp [(listContains_iff _ _).mp h]

theorem rhosDeployMSLoop_groups (infraID : String) :
    ∀ (k i : Nat) (s : RhosNewState) (calls : List RhosNewCall),
      (rhosDeployMSLoop infraID k i s calls).1.groups = s.groups := by
  intro k
  induction k with
  | zero => intro i s calls; rfl
  | succ k ih =>
      intro i s calls
      simp only [rhosDeployMSLoop]
      rw [ih]
      exact msEnsureDeployed_groups s _

theorem rhosDeployMSLoop_mem (infraID : String) :
    ∀ (k i : Nat) (s : RhosNewState) (calls : List RhosNewCall) (x : String),
      s.machinesets.contains x = true →
      (rhosDeployMSLoop infraID k i s calls).1.machinesets.contains x = true := by
  intro k
  induction k with
  | zero => intro i s calls x hx; exact hx
  | succ k ih =>
      intro i s calls x hx
      simp only [rhosDeployMSLoop]
      exact ih (i + 1) _ _ x (msEnsureDeployed_mem s _ x hx)

theorem rhosDeployMSLoop_names (infraID : String) :
    ∀ (k i : Nat) (s : RhosNewState) (calls : List RhosNewCall) (j : Nat),
      j < k →
      (rhosDeployMSLoop infraID k i s calls).1.machinesets.contains
        (rhosMSName infraID (i + j)) = true := by
  intro k
  induction k with
  | zero => intro i s calls j hj; exact absurd hj (Nat.not_lt_zero j)
  | succ k ih =>
      intro i s calls j hj
      simp only [rhosDeployMSLoop]
      cases j with
      | zero =>
          rw [Nat.add_zero]
          exact rhosDeployMSLoop_mem infraID k (i + 1) _ _ _
            (msEnsureDeployed_self s _)
      | succ j =>
          have : i + (j + 1) = (i + 1) + j := by omega
          rw [this]
          exact ih (i + 1) _ _ j (by omega)

theorem rhosDeployMSLoop_len (infraID : String) :
    ∀ (k i : Nat) (s : RhosNewState) (calls : List RhosNewCall),
      s.machinesets.length ≤
        (rhosDeployMSLoop infraID k i s calls).1.machinesets.length := by
  intro k
  induction k with
  | zero => intro i s calls; exact Nat.le_refl _
  | succ k ih =>
      intro i s calls
      simp only [rhosDeployMSLoop]
      exact Nat.le_trans (msEnsureDeployed_len s _) (ih (i + 1) _ _)

theorem rhosDeployMSLoop_noop (infraID : String) :
    ∀ (k i : Nat) (s : RhosNewState) (calls : List RhosNewCall),
      (∀ j, j < k → s.machinesets.contains (rhosMSName infraID (i + j)) = true) →
      rhosDeployMSLoop infraID k i s calls = (s, calls) := by
  intro k
  induction k with
  | zero => intro i s calls _; rfl
  | succ k ih =>
      intro i s calls hall
      have h0 : s.machinesets.contains (rhosMSName infraID i) = true := by
        have := hall 0 (Nat.zero_lt_succ k)
        rwa [Nat.add_zero] at this
      simp only [rhosDeployMSLoop, msEnsureDeployed_noop s _ h0]
      rw [List.append_nil]
      exact ih (i + 1) s calls (fun j hj => by
        have := hall (j + 1) (by omega)
        rwa [show i + (j + 1) = (i + 1) + j by omega] at this)

theorem rhosEnsureGWSecurityGroup_machinesets (s : RhosNewState)
    (gn : String) :
    (rhosEnsureGWSecurityGroup s gn).1.machinesets = s.machinesets := by
  unfold rhosEnsureGWSecurityGroup
  split <;> rfl

theorem rhosEnsureGWSecurityGroup_contains (s : RhosNewState) (gn : String) :
    (rhosEnsureGWSecurityGroup s gn).1.groups.contains gn = true := by
  unfold rhosEnsureGWSecurityGroup
  split
  · assumption
  · simp

theorem rhosEnsureGWSecurityGroup_noop (s : RhosNewState) (gn : String)
    (h : s.groups.contains gn = true) :
    rhosEnsureGWSecurityGroup s gn = (s, []) := by
  unfold rhosEnsureGWSecurityGroup
  simp [(listContains_iff _ _).mp h]

theorem rhosEnsureGWSecurityGroup_calls (s : RhosNewState) (gn : String) :
    ∀ call ∈ (rhosEnsureGWSecurityGroup s gn).2, call = .createSG gn := by
  unfold rhosEnsureGWSecurityGroup
  split
  · intro call hc
    exact absurd hc (List.not_mem_nil call)
  · intro call hc
    simpa using hc

/-- rhosDeploy when the delta is zero and the security group already
exists: nil, no state change, no call. -/
theorem rhosDeploy_delta_zero (infraID : String) (s : RhosNewState) (g : Nat)
    (hg : s.groups.contains (infraID ++ gwSecurityGroupSuffix) = true)
    (hlen : g = s.machinesets.length) :
    rhosDeploy infraID s g = ⟨none, s, []⟩ := by
  unfold rhosDeploy
  rw [rhosEnsureGWSecurityGroup_noop s _ hg]
  simp [hlen]

/-- rhosDeploy on a scale-down request: nil error, machine sets untouched,
and at most the security-group ensure call issued. -/
theorem rhosDeploy_scale_down (infraID : String) (s : RhosNewState) (g : Nat)
    (h : g < s.machinesets.length) :
    (rhosDeploy infraID s g).err = none ∧
    (rhosDeploy infraID s g).state.machinesets = s.machinesets ∧
    ∀ call ∈ (rhosDeploy infraID s g).calls,
      call = RhosNewCall.createSG (infraID ++ gwSecurityGroupSuffix) := by
  unfold rhosDeploy
  rcases hE : rhosEnsureGWSecurityGroup s (infraID ++ gwSecurityGroupSuffix)
    with ⟨s1, t1⟩
  have hms : s1.machinesets = s.machinesets := by
    have := rhosEnsureGWSecurityGroup_machinesets s (infraID ++ gwSecurityGroupSuffix)
    rwa [hE] at this
  have hne : ¬(g = s1.machinesets.length) := by
    rw [hms]
    omega
  have hlt : g < s1.machinesets.length := by rw [hms]; exact h
  simp only [hE, hne, if_false]
  unfold rhosDeployGWNodes
  simp only [hlt, if_true]
  refine ⟨by trivial, hms, ?_⟩
  intro call hc
  rw [List.append_nil] at hc
  have := rhosEnsureGWSecurityGroup_calls s (infraID ++ gwSecurityGroupSuffix)
  rw [hE] at this
  exact this call hc

/-- Running the machine-set RHOS Deploy a second time on the state the
first run left behind issues no mutation call and leaves the state
unchanged: the security group exists and every machine set the second run
would deploy already does. -/
theorem rhosDeploy_second_noop (infraID : String) (s : RhosNewState) (g : Nat) :
    (rhosDeploy infraID (rhosDeploy infraID s g).state g).calls = [] ∧
    (rhosDeploy infraID (rhosDeploy infraID s g).state g).state =
      (rhosDeploy infraID s g).state := by
  rcases hE : rhosEnsureGWSecurityGroup s (infraID ++ gwSecurityGroupSuffix)
    with ⟨s1, t1⟩
  have hgn : s1.groups.contains (infraID ++ gwSecurityGroupSuffix) = true := by
    have := rhosEnsureGWSecurityGroup_contains s (infraID ++ gwSecurityGroupSuffix)
    rwa [hE] at this
  by_cases hlen : g = s1.machinesets.length
  · have hr1 : rhosDeploy infraID s g = ⟨none, s1, t1⟩ := by
      unfold rhosDeploy
      simp [hE, hlen]
    rw [hr1]
    rw [rhosDeploy_delta_zero infraID s1 g hgn hlen]
    exact ⟨rfl, rfl⟩
  · by_cases hlt : g < s1.machinesets.length
    · have hr1 : rhosDeploy infraID s g = ⟨none, s1, t1 ++ []⟩ := by
        unfold rhosDeploy rhosDeployGWNodes
        simp [hE, hlen, hlt]
      rw [hr1]
      have hr2 : rhosDeploy infraID s1 g = ⟨none, s1, [] ++ []⟩ := by
        unfold rhosDeploy rhosDeployGWNodes
        rw [rhosEnsureGWSecurityGroup_noop s1 _ hgn]
        simp [hlen, hlt]
      rw [hr2]
      exact ⟨rfl, rfl⟩
    · have hle : s1.machinesets.length ≤ g := by omega
      rcases hL : rhosDeployMSLoop infraID (g - s1.machinesets.length) 0 s1 []
        with ⟨s2, calls2⟩
      have hr1 : rhosDeploy infraID s g = ⟨none, s2, t1 ++ calls2⟩ := by
        unfold rhosDeploy rhosDeployGWNodes
        simp only [hE, hlen, if_false]
        have : ¬(g < s1.machinesets.length) := hlt
        simp only [this, if_false, hL]
      rw [hr1]
      have hgn2 : s2.groups.contains (infraID ++ gwSecurityGroupSuffix) = true := by
        have := rhosDeployMSLoop_groups infraID (g - s1.machinesets.length) 0 s1 []
        rw [hL] at this
        rw [this]
        exact hgn
      have hnames : ∀ j, j < g - s1.machinesets.length →
          s2.machinesets.contains (rhosMSName infraID j) = true := by
        intro j hj
        have := rhosDeployMSLoop_names infraID (g - s1.machinesets.length) 0 s1 [] j hj
        rw [hL] at this
        simpa using this
      have hlen2 : s1.machinesets.length ≤ s2.machinesets.length := by
        have := rhosDeployMSLoop_len infraID (g - s1.machinesets.length) 0 s1 []
        rwa [hL] at this
      by_cases hg2 : g = s2.machinesets.length
      · rw [rhosDeploy_delta_zero infraID s2 g hgn2 hg2]
        exact ⟨rfl, rfl⟩
      · by_cases hlt2 : g < s2.machinesets.length
        · have hr2 : rhosDeploy infraID s2 g = ⟨none, s2, [] ++ []⟩ := by
            unfold rhosDeploy rhosDeployGWNodes
            rw [rhosEnsureGWSecurityGroup_noop s2 _ hgn2]
            simp [hg2, hlt2]
          rw [hr2]
          exact ⟨rfl, rfl⟩
        · have hnoop : rhosDeployMSLoop infraID (g - s2.machinesets.length) 0 s2 [] =
              (s2, []) := by
            apply rhosDeployMSLoop_noop
            intro j hj
            have : j < g - s1.machinesets.length := by omega
            simpa using hnames j this
          have hr2 : rhosDeploy infraID s2 g = ⟨none, s2, [] ++ []⟩ := by
            unfold rhosDeploy rhosDeployGWNodes
            rw [rhosEnsureGWSecurityGroup_noop s2 _ hgn2]
            simp only [hg2, if_false]
            have : ¬(g < s2.machinesets.length) := hlt2
            simp only [this, if_false, hnoop]
          rw [hr2]
          exact ⟨rfl, rfl⟩

/-! ## Supporting lemmas: the node-labeling RHOS deploy loop -/

/-- Whether a RHOS call is an AddGWLabelOnNode mutation. -/
def isAddGWLabelCall : RhosOldCall → Bool
  | .addGWLabel _ => true
  | _ => false

/-- Worker nodes not yet tagged as gateways, in listing order: the nodes
the labeling loop acts on. -/
def untaggedOf (l : List Node) : List Node :=
  l.filter (fun n => !(getLabel n rhosSubmarinerGatewayNodeTag == some "true"))

theorem rhosOpenGatewayPort_no_label (s : RhosOldState) (nodeName : String) :
    ∀ call ∈ (rhosOpenGatewayPort s nodeName).2, isAddGWLabelCall call = false := by
  unfold rhosOpenGatewayPort
  split
  · intro call hc
    exact absurd hc (List.not_mem_nil call)
  · intro call hc
    have : call = RhosOldCall.openGWPort nodeName := by simpa using hc
    rw [this]
    rfl

theorem rhosOldEnsureSG_cluster (s : RhosOldState) (gn : String) :
    (rhosOldEnsureSG s gn).1.cluster = s.cluster := by
  unfold rhosOldEnsureSG
  split <;> rfl

theorem rhosOldEnsureSG_no_label (s : RhosOldState) (gn : String) :
    ∀ call ∈ (rhosOldEnsureSG s gn).2, isAddGWLabelCall call = false := by
  unfold rhosOldEnsureSG
  split
  · intro call hc
    exact absurd hc (List.not_mem_nil call)
  · intro call hc
    have : call = RhosOldCall.createSG gn := by simpa using hc
    rw [this]
    rfl

theorem filter_no_label (calls : List RhosOldCall)
    (h : ∀ call ∈ calls, isAddGWLabelCall call = false) :
    calls.filter isAddGWLabelCall = [] := by
  rw [List.filter_eq_nil_iff]
  intro call hc
  simp [h call hc]

/-- When the untagged worker nodes run out before the remaining count does,
the node-labeling loop labels exactly the untagged workers of its snapshot,
reports the insufficiency through the reporter, and returns nil. -/
theorem rhosOldLoop_insufficient (gn : String) :
    ∀ (pending : List Node) (s : RhosOldState) (t : Int)
      (calls : List RhosOldCall),
      ((untaggedOf pending).length : Int) < t →
      (rhosOldLoop gn pending s t calls).err = none ∧
      (rhosOldLoop gn pending s t calls).failedReports =
          [rhosInsufficientNodesMsg] ∧
      (rhosOldLoop gn pending s t calls).calls.filter isAddGWLabelCall =
        calls.filter isAddGWLabelCall ++
          (untaggedOf pending).map (fun n => RhosOldCall.addGWLabel n.name) := by
  intro pending
  induction pending with
  | nil =>
      intro s t calls hlt
      have ht : 0 < t := by
        have : ((untaggedOf ([] : List Node)).length : Int) = 0 := by
          simp [untaggedOf]
        omega
      refine ⟨by simp [rhosOldLoop, ht], by simp [rhosOldLoop, ht], ?_⟩
      simp [rhosOldLoop, ht, untaggedOf]
  | cons n rest ih =>
      intro s t calls hlt
      by_cases htag : (getLabel n rhosSubmarinerGatewayNodeTag == some "true") = true
      · have he : untaggedOf (n :: rest) = untaggedOf rest := by
          simp [untaggedOf, List.filter_cons, htag]
        rw [he] at hlt
        have heq : rhosOldLoop gn (n :: rest) s t calls =
            rhosOldLoop gn rest s t calls := by
          simp [rhosOldLoop, htag]
        rw [heq, he]
        exact ih s t calls hlt
      · rw [Bool.not_eq_true] at htag
        have he : untaggedOf (n :: rest) = n :: untaggedOf rest := by
          simp [untaggedOf, List.filter_cons, htag]
        rw [he] at hlt
        simp only [List.length_cons] at hlt
        have ht1 : ¬(t - 1 ≤ 0) := by
          push_cast at hlt
          omega
        have hlt2 : ((untaggedOf rest).length : Int) < t - 1 := by
          push_cast at hlt ⊢
          omega
        rcases hO : rhosOpenGatewayPort
            { s with cluster := addGWLabelOnNode s.cluster n.name } n.name
          with ⟨s3, t3⟩
        have heq : rhosOldLoop gn (n :: rest) s t calls =
            rhosOldLoop gn rest s3 (t - 1)
              ((calls ++ [RhosOldCall.addGWLabel n.name]) ++ t3) := by
          simp [rhosOldLoop, htag, hO, ht1]
        rw [heq, he]
        have hrec := ih s3 (t - 1) ((calls ++ [RhosOldCall.addGWLabel n.name]) ++ t3) hlt2
        refine ⟨hrec.1, hrec.2.1, ?_⟩
        rw [hrec.2.2]
        have ht3 : t3.filter isAddGWLabelCall = [] := by
          apply filter_no_label
          intro call hc
          have := rhosOpenGatewayPort_no_label
            { s with cluster := addGWLabelOnNode s.cluster n.name } n.name
          rw [hO] at this
          exact this call hc
        rw [List.filter_append, List.filter_append, ht3]
        simp [isAddGWLabelCall]

/-! ## Claim theorems -/

/-- C1: when the desired gateway count is below the current count of
gateway-marked resources, Deploy issues zero delete or label-removal calls,
the set of gateway-marked resources is not decreased, and the call returns
success (nil): the generic deployer returns nil with no call and an
unchanged cluster, and the RHOS machine-set deployer returns nil with its
machine sets untouched and at most the security-group ensure call. -/
theorem claim_C1_scale_down_rejected (c : Cluster) (g : Int)
    (infraID : String) (s : RhosNewState) (gn : Nat)
    (hgen : g < (gwCount c : Int)) (hrhos : gn < s.machinesets.length) :
    genericDeploy c g = ⟨none, c, []⟩ ∧
    (rhosDeploy infraID s gn).err = none ∧
    (rhosDeploy infraID s gn).state.machinesets = s.machinesets ∧
    ∀ call ∈ (rhosDeploy infraID s gn).calls,
      call = RhosNewCall.createSG (infraID ++ gwSecurityGroupSuffix) := by
  obtain ⟨h1, h2, h3⟩ := rhosDeploy_scale_down infraID s gn hrhos
  exact ⟨genericDeploy_delta_neg c g (by omega), h1, h2, h3⟩

/-- Witness for C1 at a concrete scale-down input: two gateway nodes
(machine sets), one desired. -/
theorem claim_C1_witness :
    genericDeploy
        ⟨[⟨"g1", [("submariner.io/gateway", "true")], []⟩,
          ⟨"g2", [("submariner.io/gateway", "true")], []⟩]⟩ 1 =
      ⟨none,
        ⟨[⟨"g1", [("submariner.io/gateway", "true")], []⟩,
          ⟨"g2", [("submariner.io/gateway", "true")], []⟩]⟩, []⟩ ∧
    (rhosDeploy "ic" ⟨[], ["ms0", "ms1"]⟩ 1).err = none ∧
    (rhosDeploy "ic" ⟨[], ["ms0", "ms1"]⟩ 1).state.machinesets = ["ms0", "ms1"] ∧
    ∀ call ∈ (rhosDeploy "ic" ⟨[], ["ms0", "ms1"]⟩ 1).calls,
      call = RhosNewCall.createSG ("ic" ++ gwSecurityGroupSuffix) :=
  claim_C1_scale_down_rejected
    ⟨[⟨"g1", [("submariner.io/gateway", "true")], []⟩,
      ⟨"g2", [("submariner.io/gateway", "true")], []⟩]⟩ 1
    "ic" ⟨[], ["ms0", "ms1"]⟩ 1 (by decide) (by decide)

/-- C2: Deploy is idempotent.  For the generic deployer (on a cluster with
unique node names, as Kubernetes guarantees), a second Deploy with the same
request on the state the first call produced issues no mutation call and
leaves the cluster unchanged, and a zero delta returns nil with no call.
For the RHOS machine-set deployer, a second Deploy issues no mutation call
and leaves the state unchanged (every operation of the second call reduces
to a check-then-skip noop), and a zero delta with the security group in
place returns nil with no call. -/
theorem claim_C2_deploy_idempotent (c : Cluster) (g : Int)
    (infraID : String) (s : RhosNewState) (gn : Nat)
    (hnd : (c.nodes.map Node.name).Nodup) :
    ((genericDeploy (genericDeploy c g).cluster g).calls = [] ∧
     (genericDeploy (genericDeploy c g).cluster g).cluster =
       (genericDeploy c g).cluster) ∧
    ((gwCount c : Int) = g → genericDeploy c g = ⟨none, c, []⟩) ∧
    ((rhosDeploy infraID (rhosDeploy infraID s gn).state gn).calls = [] ∧
     (rhosDeploy infraID (rhosDeploy infraID s gn).state gn).state =
       (rhosDeploy infraID s gn).state) ∧
    (s.groups.contains (infraID ++ gwSecurityGroupSuffix) = true →
      gn = s.machinesets.length → rhosDeploy infraID s gn = ⟨none, s, []⟩) :=
  ⟨genericDeploy_second_noop c g hnd,
   fun h => genericDeploy_delta_zero c g (by omega),
   rhosDeploy_second_noop infraID s gn,
   fun h1 h2 => rhosDeploy_delta_zero infraID s gn h1 h2⟩

/-- Witness for C2 at concrete inputs: a cluster already carrying the one
desired gateway, and a RHOS state already carrying the one desired machine
set with its security group in place. -/
theorem claim_C2_witness :
    (genericDeploy
        (genericDeploy ⟨[⟨"g1", [("submariner.io/gateway", "true")], []⟩,
          ⟨"w1", [], []⟩]⟩ 1).cluster 1).calls = [] ∧
    genericDeploy ⟨[⟨"g1", [("submariner.io/gateway", "true")], []⟩,
        ⟨"w1", [], []⟩]⟩ 1 =
      ⟨none, ⟨[⟨"g1", [("submariner.io/gateway", "true")], []⟩,
        ⟨"w1", [], []⟩]⟩, []⟩ ∧
    (rhosDeploy "ic"
        (rhosDeploy "ic" ⟨["ic" ++ gwSecurityGroupSuffix], ["ms0"]⟩ 1).state
        1).calls = [] ∧
    rhosDeploy "ic" ⟨["ic" ++ gwSecurityGroupSuffix], ["ms0"]⟩ 1 =
      ⟨none, ⟨["ic" ++ gwSecurityGroupSuffix], ["ms0"]⟩, []⟩ := by
  have h := claim_C2_deploy_idempotent
    ⟨[⟨"g1", [("submariner.io/gateway", "true")], []⟩, ⟨"w1", [], []⟩]⟩ 1
    "ic" ⟨["ic" ++ gwSecurityGroupSuffix], ["ms0"]⟩ 1 (by decide)
  exact ⟨h.1.1, h.2.1 (by decide), h.2.2.1.1, h.2.2.2 (by decide) (by decide)⟩

/-- When the eligible zones run out before the remaining count does, the
Azure dedicated-gateway loop deploys exactly one machine set per zone (no
further attempt) and returns nil. -/
theorem azDeployZonesLoop_exhausted (region image : String) :
    ∀ (zones : List String) (idx : Nat) (s : AzState) (t : Int)
      (calls : List AzCall),
      ((zones.length : Int) < t) →
      (azDeployZonesLoop region image zones idx s t calls).err = none ∧
      (azDeployZonesLoop region image zones idx s t calls).calls.length =
        calls.length + zones.length := by
  intro zones
  induction zones with
  | nil =>
      intro idx s t calls _
      exact ⟨rfl, by simp [azDeployZonesLoop]⟩
  | cons zone rest ih =>
      intro idx s t calls hlt
      simp only [List.length_cons] at hlt
      have ht1 : ¬(t - 1 ≤ 0) := by
        push_cast at hlt
        omega
      have hlt2 : ((rest.length : Int)) < t - 1 := by
        push_cast at hlt ⊢
        omega
      have heq : azDeployZonesLoop region image (zone :: rest) idx s t calls =
          azDeployZonesLoop region image rest (idx + 1)
            { s with machinesets := s.machinesets ++
                [⟨azMachineName region idx, machineSetZoneField zone⟩] }
            (t - 1)
            (calls ++ [AzCall.deployMS (azMachineName region idx) zone]) := by
        simp [azDeployZonesLoop, ht1]
      rw [heq]
      have hrec := ih (idx + 1)
        { s with machinesets := s.machinesets ++
            [⟨azMachineName region idx, machineSetZoneField zone⟩] }
        (t - 1)
        (calls ++ [AzCall.deployMS (azMachineName region idx) zone]) hlt2
      refine ⟨hrec.1, ?_⟩
      rw [hrec.2]
      simp only [List.length_append, List.length_cons, List.length_nil]
      omega

/-- Azure deployDedicatedGWNode with more gateways still needed than
eligible zones: one machine set deployed per eligible zone (including the
zero-zone branch) and a nil return, because the final status.Error receives
the nil error of the zone listing. -/
theorem azDeployDedicatedGWNode_insufficient
    (region instanceType image : String) (gwMachineSets : List AzMachineSet)
    (s : AzState) (toDeploy : Int)
    (h : ((getAvailabilityZones region instanceType
        (gwMachineSets.map AzMachineSet.zone) s.skus).length : Int) <
      toDeploy) :
    (azDeployDedicatedGWNode region instanceType image gwMachineSets s
      toDeploy).err = none ∧
    (azDeployDedicatedGWNode region instanceType image gwMachineSets s
        toDeploy).calls.length =
      (getAvailabilityZones region instanceType
        (gwMachineSets.map AzMachineSet.zone) s.skus).length := by
  unfold azDeployDedicatedGWNode
  by_cases h0 : (getAvailabilityZones region instanceType
      (gwMachineSets.map AzMachineSet.zone) s.skus).length = 0
  · simp [h0]
  · simp only [h0, if_false]
    have hrun := azDeployZonesLoop_exhausted region image
      (getAvailabilityZones region instanceType
        (gwMachineSets.map AzMachineSet.zone) s.skus) 0 s toDeploy [] h
    exact ⟨hrun.1, by rw [hrun.2]; simp⟩

/-- C3 counterexample: the claim asserts that when the desired count
exceeds the eligible nodes/zones the call fails with a capacity-specific
error.  In the RHOS node-labeling Deploy with one eligible worker and two
desired gateways, the worker is labeled, the capacity failure is reported
only through the reporter, and the call returns nil; and in the Azure
deployDedicatedGWNode with one eligible zone and two gateways still needed,
one machine set is deployed and the call likewise returns nil (status.Error
receives the nil zone-listing error) — neither call fails. -/
theorem claim_C3_counterexample :
    (rhosOldDeploy "ic"
        ⟨⟨[⟨"node-1", [("node-role.kubernetes.io/worker", "")], []⟩]⟩, [], []⟩
        2).err = none ∧
    (rhosOldDeploy "ic"
        ⟨⟨[⟨"node-1", [("node-role.kubernetes.io/worker", "")], []⟩]⟩, [], []⟩
        2).failedReports = [rhosInsufficientNodesMsg] ∧
    (rhosOldDeploy "ic"
        ⟨⟨[⟨"node-1", [("node-role.kubernetes.io/worker", "")], []⟩]⟩, [], []⟩
        2).calls.filter isAddGWLabelCall = [.addGWLabel "node-1"] ∧
    (azDeployDedicatedGWNode "eastus" "m1" "img" []
        ⟨[], [], [], [], [⟨"virtualMachines", "m1", ["1"]⟩]⟩ 2).err = none ∧
    (azDeployDedicatedGWNode "eastus" "m1" "img" []
        ⟨[], [], [], [], [⟨"virtualMachines", "m1", ["1"]⟩]⟩ 2).calls =
      [.deployMS (azMachineName "eastus" 0) "1"] := by
  decide

/-- C3 (amended): when the desired count exceeds the number of eligible
nodes/zones, exactly the eligible resources are created or labeled — one
mutation per eligible node or zone, no further attempt.  The generic
deployer then fails with the capacity-specific insufficiency error (a
distinct error constructor); the RHOS node-labeling deployer reports the
capacity failure through the reporter but returns nil; and the Azure
deployDedicatedGWNode returns nil as well, because its final status.Error
receives the nil error of the zone listing. -/
theorem claim_C3_capacity (c : Cluster) (g : Int)
    (infraID : String) (s : RhosOldState) (g2 : Int)
    (region instanceType image : String) (msAz : List AzMachineSet)
    (sAz : AzState) (g3 : Int)
    (hgen : ((eligibleOf (listNodesWithoutGWLabel c)).length : Int) <
      g - gwCount c)
    (hr2 : ((untaggedOf (listWorkerNodes s.cluster)).length : Int) <
      g2 - gwCount s.cluster)
    (hr1 : (gwCount s.cluster : Int) < g2)
    (haz : ((getAvailabilityZones region instanceType
        (msAz.map AzMachineSet.zone) sAz.skus).length : Int) < g3) :
    (genericDeploy c g).err =
      some (.insufficientWorkerNodes (listNodesWithoutGWLabel c).length g) ∧
    (genericDeploy c g).calls =
      (eligibleOf (listNodesWithoutGWLabel c)).map
        (fun n => K8sCall.addGWLabel n.name) ∧
    (rhosOldDeploy infraID s g2).err = none ∧
    (rhosOldDeploy infraID s g2).failedReports = [rhosInsufficientNodesMsg] ∧
    (rhosOldDeploy infraID s g2).calls.filter isAddGWLabelCall =
      (untaggedOf (listWorkerNodes s.cluster)).map
        (fun n => RhosOldCall.addGWLabel n.name) ∧
    (azDeployDedicatedGWNode region instanceType image msAz sAz g3).err =
      none ∧
    (azDeployDedicatedGWNode region instanceType image msAz sAz
        g3).calls.length =
      (getAvailabilityZones region instanceType
        (msAz.map AzMachineSet.zone) sAz.skus).length := by
  have hpos : 0 < g - (gwCount c : Int) := by
    have : (0 : Int) ≤ (eligibleOf (listNodesWithoutGWLabel c)).length :=
      Int.ofNat_nonneg _
    omega
  have hgenloop := genericDeployLoop_insufficient
    (listNodesWithoutGWLabel c).length g (listNodesWithoutGWLabel c) c
    (g - gwCount c) [] hgen
  rw [← genericDeploy_delta_pos c g hpos] at hgenloop
  have hazres := azDeployDedicatedGWNode_insufficient region instanceType
    image msAz sAz g3 haz
  have hrhos : (rhosOldDeploy infraID s g2).err = none ∧
      (rhosOldDeploy infraID s g2).failedReports =
        [rhosInsufficientNodesMsg] ∧
      (rhosOldDeploy infraID s g2).calls.filter isAddGWLabelCall =
        (untaggedOf (listWorkerNodes s.cluster)).map
          (fun n => RhosOldCall.addGWLabel n.name) := by
    unfold rhosOldDeploy
    rcases hE : rhosOldEnsureSG s (infraID ++ gwSecurityGroupSuffix)
      with ⟨s1, t1⟩
    have hcl : s1.cluster = s.cluster := by
      have := rhosOldEnsureSG_cluster s (infraID ++ gwSecurityGroupSuffix)
      rwa [hE] at this
    have hne : ¬((gwCount s1.cluster : Int) = g2) := by rw [hcl]; omega
    have hlt : (gwCount s1.cluster : Int) < g2 := by rw [hcl]; exact hr1
    have hloop := rhosOldLoop_insufficient (infraID ++ gwSecurityGroupSuffix)
      (listWorkerNodes s1.cluster) s1 (g2 - gwCount s1.cluster) []
      (by rw [hcl]; exact hr2)
    simp only [hE, hne, if_false, hlt, if_true]
    refine ⟨hloop.1, hloop.2.1, ?_⟩
    rw [List.filter_append, hloop.2.2, hcl]
    have ht1 : t1.filter isAddGWLabelCall = [] := by
      apply filter_no_label
      intro call hc
      have := rhosOldEnsureSG_no_label s (infraID ++ gwSecurityGroupSuffix)
      rw [hE] at this
      exact this call hc
    rw [ht1]
    simp
  exact ⟨hgenloop.1, by rw [hgenloop.2]; simp, hrhos.1, hrhos.2.1,
    hrhos.2.2, hazres.1, hazres.2⟩

/-- Witness for C3 (amended) at concrete inputs: one eligible node or zone,
two desired gateways, in all three deployers. -/
theorem claim_C3_witness :
    (genericDeploy ⟨[⟨"w1", [], []⟩]⟩ 2).err =
      some (.insufficientWorkerNodes 1 2) ∧
    (genericDeploy ⟨[⟨"w1", [], []⟩]⟩ 2).calls = [.addGWLabel "w1"] ∧
    (rhosOldDeploy "ic"
        ⟨⟨[⟨"node-1", [("node-role.kubernetes.io/worker", "")], []⟩]⟩, [], []⟩
        2).err = none ∧
    (rhosOldDeploy "ic"
        ⟨⟨[⟨"node-1", [("node-role.kubernetes.io/worker", "")], []⟩]⟩, [], []⟩
        2).failedReports = [rhosInsufficientNodesMsg] ∧
    (azDeployDedicatedGWNode "eastus" "m1" "img" []
        ⟨[], [], [], [], [⟨"virtualMachines", "m1", ["1"]⟩]⟩ 2).err = none ∧
    (azDeployDedicatedGWNode "eastus" "m1" "img" []
        ⟨[], [], [], [], [⟨"virtualMachines", "m1", ["1"]⟩]⟩ 2).calls.length =
      1 := by
  have h := claim_C3_capacity ⟨[⟨"w1", [], []⟩]⟩ 2 "ic"
    ⟨⟨[⟨"node-1", [("node-role.kubernetes.io/worker", "")], []⟩]⟩, [], []⟩ 2
    "eastus" "m1" "img" [] ⟨[], [], [], [], [⟨"virtualMachines", "m1", ["1"]⟩]⟩ 2
    (by decide) (by decide) (by decide) (by decide)
  refine ⟨?_, ?_, h.2.2.1, h.2.2.2.1, h.2.2.2.2.2.1, ?_⟩
  · rw [h.1]; rfl
  · rw [h.2.1]; rfl
  · rw [h.2.2.2.2.2.2]; rfl

/-! ## Supporting lemmas: Azure security-group state -/

theorem find?_put {β : Type} :
    ∀ (l : List (String × β)) (k : String) (v : β),
      (if l.any (fun p => p.1 == k) then
          l.map (fun p => if p.1 == k then (k, v) else p)
        else l ++ [(k, v)]).find? (fun p => p.1 == k) = some (k, v) := by
  intro l k v
  by_cases hany : l.any (fun p => p.1 == k)
  · simp only [hany, if_true]
    induction l with
    | nil => simp at hany
    | cons p ps ih =>
        by_cases hp : (p.1 == k) = true
        · simp [List.find?, hp]
        · rw [Bool.not_eq_true] at hp
          have hps : ps.any (fun p => p.1 == k) = true := by
            simp only [List.any_cons, hp, Bool.false_or] at hany
            exact hany
          simp only [List.map_cons, hp, Bool.false_eq_true, if_false,
            List.find?, hp]
          exact ih hps
  · rw [Bool.not_eq_true] at hany
    simp only [hany, Bool.false_eq_true, if_false]
    have hall : ∀ p ∈ l, ¬((fun p : String × β => p.1 == k) p = true) := by
      intro p hp
      rw [List.any_eq_false] at hany
      simpa using hany p hp
    rw [List.find?_append, List.find?_eq_none.mpr hall]
    simp [List.find?]

theorem sgGet_sgPut (st : AzSGState) (n : String) (g : AzSecurityGroup) :
    sgGet (sgPut st n g) n = some g := by
  unfold sgGet sgPut
  rw [find?_put st.groups n g]
  rfl

/-- C4: removing the internal rule set keeps exactly the rules whose name
does not contain the internal managed prefix, unchanged and in order; in
particular every rule whose name lacks the internal prefix (such as the
external-prefixed rules) survives, every internal-prefixed rule is removed,
and, conversely, reconciling the internal rule set with openInternalPorts
never removes any pre-existing rule. -/
theorem claim_C4_rule_prefix_isolation (infraID : String) (st : AzSGState)
    (g : AzSecurityGroup)
    (hget : sgGet st (infraID ++ internalSecurityGroupSuffix) = some g) :
    (removeInternalFirewallRules infraID st).err = none ∧
    rulesOf (removeInternalFirewallRules infraID st).state
        (infraID ++ internalSecurityGroupSuffix) =
      g.securityRules.filter isUnmanagedInternalRule ∧
    (∀ r ∈ g.securityRules, ∀ n, r.name = some n →
      strContains n internalSecurityRulePrefix = false →
      r ∈ rulesOf (removeInternalFirewallRules infraID st).state
        (infraID ++ internalSecurityGroupSuffix)) ∧
    (∀ r ∈ g.securityRules, ∀ n, r.name = some n →
      strContains n internalSecurityRulePrefix = true →
      r ∉ rulesOf (removeInternalFirewallRules infraID st).state
        (infraID ++ internalSecurityGroupSuffix)) ∧
    (∀ (ports : List PortSpec), ∀ r ∈ g.securityRules,
      r ∈ rulesOf (openInternalPorts infraID ports st).state
        (infraID ++ internalSecurityGroupSuffix)) := by
  have hres : removeInternalFirewallRules infraID st =
      ⟨none,
        sgPut st (infraID ++ internalSecurityGroupSuffix)
          { g with securityRules := g.securityRules.filter isUnmanagedInternalRule },
        [.createOrUpdate (infraID ++ internalSecurityGroupSuffix)
          { g with securityRules := g.securityRules.filter isUnmanagedInternalRule }]⟩ := by
    unfold removeInternalFirewallRules
    rw [hget]
  have hrules : rulesOf (removeInternalFirewallRules infraID st).state
      (infraID ++ internalSecurityGroupSuffix) =
      g.securityRules.filter isUnmanagedInternalRule := by
    rw [hres]
    unfold rulesOf
    rw [sgGet_sgPut]
  refine ⟨by rw [hres], hrules, ?_, ?_, ?_⟩
  · intro r hr n hn hnc
    rw [hrules]
    refine List.mem_filter.mpr ⟨hr, ?_⟩
    unfold isUnmanagedInternalRule
    rw [hn]
    show (!strContains n internalSecurityRulePrefix) = true
    rw [hnc]
    rfl
  · intro r _ n hn hnc hmem
    rw [hrules] at hmem
    have := (List.mem_filter.mp hmem).2
    unfold isUnmanagedInternalRule at this
    rw [hn] at this
    have h2 : (!strContains n internalSecurityRulePrefix) = true := this
    rw [hnc] at h2
    simp at h2
  · intro ports r hr
    unfold openInternalPorts
    rw [hget]
    by_cases hpresent : checkIfSecurityRulesPresent g = true
    · simp only [hpresent, if_true]
      unfold rulesOf
      rw [hget]
      exact hr
    · rw [Bool.not_eq_true] at hpresent
      simp only [hpresent, Bool.false_eq_true, if_false]
      unfold rulesOf
      rw [sgGet_sgPut]
      exact List.mem_append_left _ hr

/-- Witness for C4 at a concrete shared rule set holding one internal and
one external rule: the external rule survives internal-rule removal, the
internal rule is removed, and the external rule also survives
openInternalPorts. -/
theorem claim_C4_witness :
    (createSecurityRule externalSecurityRulePrefix allNetworkCIDR
        allNetworkCIDR "udp" 4500 3500) ∈
      rulesOf (removeInternalFirewallRules "ic"
        ⟨[("ic" ++ internalSecurityGroupSuffix,
          ⟨[createSecurityRule internalSecurityRulePrefix allNetworkCIDR
              allNetworkCIDR "udp" 4500 2500,
            createSecurityRule externalSecurityRulePrefix allNetworkCIDR
              allNetworkCIDR "udp" 4500 3500], none⟩)]⟩).state
        ("ic" ++ internalSecurityGroupSuffix) ∧
    (createSecurityRule internalSecurityRulePrefix allNetworkCIDR
        allNetworkCIDR "udp" 4500 2500) ∉
      rulesOf (removeInternalFirewallRules "ic"
        ⟨[("ic" ++ internalSecurityGroupSuffix,
          ⟨[createSecurityRule internalSecurityRulePrefix allNetworkCIDR
              allNetworkCIDR "udp" 4500 2500,
            createSecurityRule externalSecurityRulePrefix allNetworkCIDR
              allNetworkCIDR "udp" 4500 3500], none⟩)]⟩).state
        ("ic" ++ internalSecurityGroupSuffix) := by
  have h := claim_C4_rule_prefix_isolation "ic"
    ⟨[("ic" ++ internalSecurityGroupSuffix,
      ⟨[createSecurityRule internalSecurityRulePrefix allNetworkCIDR
          allNetworkCIDR "udp" 4500 2500,
        createSecurityRule externalSecurityRulePrefix allNetworkCIDR
          allNetworkCIDR "udp" 4500 3500], none⟩)]⟩
    ⟨[createSecurityRule internalSecurityRulePrefix allNetworkCIDR
        allNetworkCIDR "udp" 4500 2500,
      createSecurityRule externalSecurityRulePrefix allNetworkCIDR
        allNetworkCIDR "udp" 4500 3500], none⟩ (by rfl)
  exact ⟨h.2.2.1 _ (by decide) _ rfl (by decide),
         h.2.2.2.1 _ (by decide) _ rfl (by decide)⟩

/-- C5: openInternalPorts is a presence check, not a diff.  When any rule
of the fetched set bears the managed prefix it returns nil with no
create-or-update call — whatever the other managed rules are; otherwise it
appends all desired rules to the pre-existing rules and issues exactly one
awaited create-or-update carrying them. -/
theorem claim_C5_presence_not_diff (infraID : String) (ports : List PortSpec)
    (st : AzSGState) (g : AzSecurityGroup)
    (hget : sgGet st (infraID ++ internalSecurityGroupSuffix) = some g) :
    (checkIfSecurityRulesPresent g = true →
      openInternalPorts infraID ports st = ⟨none, st, []⟩) ∧
    (checkIfSecurityRulesPresent g = false →
      (openInternalPorts infraID ports st).err = none ∧
      (openInternalPorts infraID ports st).calls =
        [.createOrUpdate (infraID ++ internalSecurityGroupSuffix)
          { g with securityRules :=
            g.securityRules ++ desiredInternalRules ports }] ∧
      rulesOf (openInternalPorts infraID ports st).state
          (infraID ++ internalSecurityGroupSuffix) =
        g.securityRules ++ desiredInternalRules ports) := by
  constructor
  · intro hpresent
    unfold openInternalPorts
    rw [hget]
    simp only [hpresent, if_true]
  · intro habsent
    have hres : openInternalPorts infraID ports st =
        ⟨none,
          sgPut st (infraID ++ internalSecurityGroupSuffix)
            { g with securityRules :=
              g.securityRules ++ desiredInternalRules ports },
          [.createOrUpdate (infraID ++ internalSecurityGroupSuffix)
            { g with securityRules :=
              g.securityRules ++ desiredInternalRules ports }]⟩ := by
      unfold openInternalPorts
      rw [hget]
      simp only [habsent, Bool.false_eq_true, if_false]
    refine ⟨by rw [hres], by rw [hres], ?_⟩
    rw [hres]
    unfold rulesOf
    rw [sgGet_sgPut]

/-- Witness for C5: a rule set whose single managed rule does not match the
desired list is still treated as reconciled (noop, presence not diff), and
an unmanaged-only rule set receives exactly one create-or-update appending
the desired rules. -/
theorem claim_C5_witness :
    openInternalPorts "ic" [⟨4500, "udp"⟩]
        ⟨[("ic" ++ internalSecurityGroupSuffix,
          ⟨[createSecurityRule internalSecurityRulePrefix allNetworkCIDR
              allNetworkCIDR "tcp" 9999 2500], none⟩)]⟩ =
      ⟨none,
        ⟨[("ic" ++ internalSecurityGroupSuffix,
          ⟨[createSecurityRule internalSecurityRulePrefix allNetworkCIDR
              allNetworkCIDR "tcp" 9999 2500], none⟩)]⟩, []⟩ ∧
    (openInternalPorts "ic" [⟨4500, "udp"⟩]
        ⟨[("ic" ++ internalSecurityGroupSuffix,
          ⟨[createSecurityRule externalSecurityRulePrefix allNetworkCIDR
              allNetworkCIDR "udp" 4500 3500], none⟩)]⟩).calls =
      [.createOrUpdate ("ic" ++ internalSecurityGroupSuffix)
        ⟨[createSecurityRule externalSecurityRulePrefix allNetworkCIDR
            allNetworkCIDR "udp" 4500 3500] ++
          desiredInternalRules [⟨4500, "udp"⟩], none⟩] := by
  constructor
  · exact (claim_C5_presence_not_diff "ic" [⟨4500, "udp"⟩] _
      ⟨[createSecurityRule internalSecurityRulePrefix allNetworkCIDR
          allNetworkCIDR "tcp" 9999 2500], none⟩ (by rfl)).1 (by decide)
  · exact ((claim_C5_presence_not_diff "ic" [⟨4500, "udp"⟩] _
      ⟨[createSecurityRule externalSecurityRulePrefix allNetworkCIDR
          allNetworkCIDR "udp" 4500 3500], none⟩ (by rfl)).2 (by decide)).2.1

/-- C6: delete/close operations tolerate an already-absent target as
success.  Deleting a GCP firewall rule that does not exist returns nil (the
not-found error is swallowed), and revoking the managed internal
permissions of an AWS security group that carries none returns nil without
issuing a revoke call. -/
theorem claim_C6_absent_tolerated (st : GcpState) (name : String)
    (g : AwsSecurityGroup)
    (hg : st.firewallRules.contains name = false)
    (ha : ∀ p ∈ g.ipPermissions, isInternalPermission p = false) :
    (deleteFirewallRule st name).1 = none ∧
    revokePortsFromGroup g = (none, []) := by
  constructor
  · unfold deleteFirewallRule clientDeleteFirewallRule
    simp only [hg, Bool.false_eq_true, if_false]
    rfl
  · unfold revokePortsFromGroup
    have hnil : g.ipPermissions.filter isInternalPermission = [] :=
      List.filter_eq_nil_iff.mpr (fun p hp => by simp [ha p hp])
    simp [hnil]

/-- Witness for C6: deleting the absent rule "b" succeeds, and a group
whose only permission carries an unmanaged description is left alone. -/
theorem claim_C6_witness :
    (deleteFirewallRule ⟨["a"]⟩ "b").1 = none ∧
    revokePortsFromGroup ⟨some "sg-1", [⟨"tcp", 1, 2, [⟨some "other"⟩]⟩]⟩ =
      (none, []) :=
  claim_C6_absent_tolerated ⟨["a"]⟩ "b"
    ⟨some "sg-1", [⟨"tcp", 1, 2, [⟨some "other"⟩]⟩]⟩ (by decide) (by decide)

/-- C7 counterexample: the claim asserts that both removal operations
return success when the underlying security group does not exist, but
removeInternalFirewallRules on an empty resource group returns the wrapped
get error rather than nil (only RemoveGWFirewallRules noops). -/
theorem claim_C7_counterexample :
    (removeInternalFirewallRules "ic" ⟨[]⟩).err =
      some (.getGroupFailed ("ic" ++ internalSecurityGroupSuffix)) ∧
    (removeGWFirewallRules "ic" ⟨[]⟩).err = none := by
  constructor
  · rfl
  · rfl

/-- C7 (amended): when the targeted security group does not exist,
RemoveGWFirewallRules returns success (noop, no call), while
removeInternalFirewallRules propagates the failed get as an error (with no
call issued). -/
theorem claim_C7_missing_group (infraID : String) (st : AzSGState)
    (hx : sgGet st (infraID ++ externalSecurityGroupSuffix) = none)
    (hi : sgGet st (infraID ++ internalSecurityGroupSuffix) = none) :
    removeGWFirewallRules infraID st = ⟨none, st, []⟩ ∧
    removeInternalFirewallRules infraID st =
      ⟨some (.getGroupFailed (infraID ++ internalSecurityGroupSuffix)),
        st, []⟩ := by
  constructor
  · unfold removeGWFirewallRules checkIfSecurityGroupPresent
    rw [hx]
    rfl
  · unfold removeInternalFirewallRules
    rw [hi]

/-- Witness for C7 (amended) on the empty resource group. -/
theorem claim_C7_witness :
    removeGWFirewallRules "ic" ⟨[]⟩ = ⟨none, ⟨[]⟩, []⟩ ∧
    removeInternalFirewallRules "ic" ⟨[]⟩ =
      ⟨some (.getGroupFailed ("ic" ++ internalSecurityGroupSuffix)),
        ⟨[]⟩, []⟩ :=
  claim_C7_missing_group "ic" ⟨[]⟩ rfl rfl

/-- C8: runWithRetries invokes the wrapped function at most 3 times (the
attempts constant), returns nil immediately after the first success, and
when every attempt fails it returns the error of the last (third) attempt
verbatim. -/
theorem claim_C8_retry_policy (f : Nat → Option String) :
    (runWithRetries f).2 ≤ attempts ∧
    (∀ k, k < attempts → (∀ j, j < k → (f j).isSome = true) → f k = none →
      runWithRetries f = (none, k + 1)) ∧
    ((∀ k, k < attempts → (f k).isSome = true) →
      runWithRetries f = (f 2, 3)) := by
  refine ⟨?_, ?_, ?_⟩
  · rcases h0 : f 0 with _ | e0
    · simp [runWithRetries, attempts, runWithRetriesLoop, h0]
    · rcases h1 : f 1 with _ | e1
      · simp [runWithRetries, attempts, runWithRetriesLoop, h0, h1]
      · rcases h2 : f 2 with _ | e2 <;>
          simp [runWithRetries, attempts, runWithRetriesLoop, h0, h1, h2]
  · intro k hk hprev hk0
    have hk3 : k < 3 := hk
    interval_cases k
    · simp [runWithRetries, attempts, runWithRetriesLoop, hk0]
    · obtain ⟨e0, he0⟩ := Option.isSome_iff_exists.mp (hprev 0 (by omega))
      simp [runWithRetries, attempts, runWithRetriesLoop, he0, hk0]
    · obtain ⟨e0, he0⟩ := Option.isSome_iff_exists.mp (hprev 0 (by omega))
      obtain ⟨e1, he1⟩ := Option.isSome_iff_exists.mp (hprev 1 (by omega))
      simp [runWithRetries, attempts, runWithRetriesLoop, he0, he1, hk0]
  · intro hall
    obtain ⟨e0, he0⟩ := Option.isSome_iff_exists.mp (hall 0 (by norm_num [attempts]))
    obtain ⟨e1, he1⟩ := Option.isSome_iff_exists.mp (hall 1 (by norm_num [attempts]))
    obtain ⟨e2, he2⟩ := Option.isSome_iff_exists.mp (hall 2 (by norm_num [attempts]))
    rw [he2]
    simp [runWithRetries, attempts, runWithRetriesLoop, he0, he1, he2]

/-- Witness for C8: with a function failing once and then succeeding, the
retry loop stops after the second invocation and returns nil; its
invocation count respects the bound. -/
theorem claim_C8_witness :
    runWithRetries (fun k => if k = 0 then some "transient" else none) =
      (none, 2) ∧
    (runWithRetries (fun k => if k = 0 then some "transient" else none)).2 ≤
      attempts := by
  have h := claim_C8_retry_policy (fun k => if k = 0 then some "transient" else none)
  refine ⟨h.2.1 1 (by norm_num [attempts]) ?_ (by simp), h.1⟩
  intro j hj
  interval_cases j
  simp

/-- C9: getAvailabilityZones fails to exclude zones already hosting a
gateway machine set.  The machine sets record the bare zone (the template
renders the zone passed by deployGateway), while the exclusion check
matches region-"-"-zone against the recorded zones, so with a gateway
machine set in zone 1 of eastus, zone 1 is still returned as eligible —
unlike the spec's resolver, which subtracts hosting zones. -/
theorem claim_C9_hosting_zone_not_excluded :
    getAvailabilityZones "eastus" "m1" [machineSetZoneField "1"]
        [⟨"virtualMachines", "m1", ["1"]⟩] = ["1"] ∧
    resolveEligibleZonesSpec "m1" [machineSetZoneField "1"]
        [⟨"virtualMachines", "m1", ["1"]⟩] = [] := by
  constructor
  · rfl
  · rfl

/-- C10: the Azure OCP Deploy with a zero desired gateway count returns nil
immediately: no security group is created, no interface prepared, no
machine set deployed, and the state is untouched. -/
theorem claim_C10_zero_gateways (infraID region instanceType image : String)
    (s : AzState) (publicPorts : List PortSpec) :
    azureDeploy infraID region instanceType image s publicPorts 0 =
      ⟨none, s, []⟩ := by
  unfold azureDeploy
  simp

end CloudPrepare
